import Mathlib

/-!
Verification of the CloudPact parser (parser/grammar/parser.go together with
the AST of parser/grammar/ast.go and expr.go).

The embedding is at token level: Go's text/scanner (configured in
ParseWithFilename with Mode = ScanIdents | ScanInts | ScanFloats | ScanChars |
ScanStrings | ScanComments, and crucially WITHOUT SkipComments) delivers a
stream of classified tokens, each with a position.  A token stream is a
`List Token`; end of input is the empty list (Go's scanner keeps returning
EOF forever, and consuming at EOF leaves the state unchanged, which the
embedding mirrors by leaving the empty list unchanged).  Since the scanner
runs without SkipComments, comments are delivered to the parser as tokens of
kind Comment; the `Tok.comment` constructor mirrors that.

Every parse function of parser.go is translated one to one.  Each function
returns `Except PErr (result × remaining-tokens)`; the remaining tokens are
packaged with a length bound used only for termination.  Go's
`return nil, err` convention (a nil node together with the error) is the
`Except.error` case.  All of Go's error messages have the uniform shape
`"<text> at %s"` with the position last, so an error is modelled as the pair
of the text before " at " and the position; `render` rebuilds the full
message string.
-/

namespace CP

/-- Source position, mirroring grammar.Position (line, column, byte offset,
optional file name). -/
structure Position where
  line : Nat
  column : Nat
  offset : Nat
  file : String
deriving Repr, DecidableEq

/-- Token kinds produced by the configured text/scanner: identifiers, int
literals, float literals, quoted strings (text kept with the quotes, as
TokenText() returns it), char literals, comments (returned as tokens because
SkipComments is not set), and single-char punctuation runes. -/
inductive Tok where
  | ident (s : String)
  | int (s : String)
  | float (s : String)
  | str (s : String)
  | char (s : String)
  | comment (s : String)
  | punct (c : Char)
deriving Repr, DecidableEq

/-- scanner.TokenText() for a token. -/
def tokText : Tok → String
  | .ident s => s
  | .int s => s
  | .float s => s
  | .str s => s
  | .char s => s
  | .comment s => s
  | .punct c => String.singleton c

/-- A scanned token with its source position. -/
structure Token where
  tok : Tok
  pos : Position
deriving Repr, DecidableEq

/-- Position reported at end of input (the scanner's EOF position; its exact
value never influences parsing decisions). -/
def eofPos : Position := ⟨0, 0, 0, ""⟩

/-- TokenText() of the current token; "" at EOF. -/
def headText : List Token → String
  | [] => ""
  | t :: _ => tokText t.tok

/-- p.position() of the current token. -/
def headPos : List Token → Position
  | [] => eofPos
  | t :: _ => t.pos

/-- Go %q of a token text (escaping of special characters elided; no input
in this development needs it). -/
def goQuote (s : String) : String := "\"" ++ s ++ "\""

/-- strings.Trim(s, quote-cutset): drop leading and trailing double-quote
characters. -/
def trimQuotes (s : String) : String :=
  String.mk ((s.data.dropWhile (fun c => c == '"')).reverse.dropWhile
    (fun c => c == '"')).reverse

/-- An error value: the message text before " at ", plus the position.  Every
fmt.Errorf in parser.go ends in "at %s", so this pair is a lossless model of
the message. -/
structure PErr where
  core : String
  pos : Position
deriving Repr, DecidableEq

/-- Error of expect(): "expected %s, got %q at %s". -/
def errExpect (what got : String) (p : Position) : PErr :=
  ⟨"expected " ++ what ++ ", got " ++ goQuote got, p⟩

/-- Error of expectKeyword(): "expected '%s', got %q at %s". -/
def errExpectKw (kw got : String) (p : Position) : PErr :=
  ⟨"expected " ++ "'" ++ kw ++ "'" ++ ", got " ++ goQuote got, p⟩

/-- isTopLevelKeyword of parser.go. -/
def isTopLevelKeyword (s : String) : Bool :=
  ["module", "define", "function", "model", "assign-use"].contains s

/-- isStatementKeyword of parser.go (note: includes "for" and "while" even
though parseStatement has no case for them). -/
def isStatementKeyword (s : String) : Bool :=
  ["if", "return", "set", "create", "fail", "use", "for", "while"].contains s

/-- isAIAnnotation of parser.go (Lean name shortened). -/
def isAIAnnot (s : String) : Bool :=
  ["ai-feedback", "ai-suggests", "ai-security", "ai-performance",
   "ai-decision-accepted", "ai-decision-rejected"].any
    (fun ann => s == ann || s == ann ++ ":")

/-- isRelationshipKeyword of parser.go. -/
def isRelationshipKeyword (s : String) : Bool :=
  ["belongs_to", "has_one", "has_many", "references"].contains s

/-- expect() of parser.go: the current token must be the given punctuation
rune, which is consumed; otherwise "expected %s, got %q at %s". -/
def expect (c : Char) (what : String) : (toks : List Token) → Except PErr {r : List Token // r.length < toks.length}
  | t :: rest =>
    if t.tok = Tok.punct c then .ok ⟨rest, by simp only [List.length_cons]; omega⟩
    else .error (errExpect what (tokText t.tok) t.pos)
  | [] => .error (errExpect what "" eofPos)

/-- expectKeyword() of parser.go: the current token must be the given
identifier, which is consumed; otherwise "expected '%s', got %q at %s". -/
def expectKw (kw : String) : (toks : List Token) → Except PErr {r : List Token // r.length < toks.length}
  | t :: rest =>
    if t.tok = Tok.ident kw then .ok ⟨rest, by simp only [List.length_cons]; omega⟩
    else .error (errExpectKw kw (tokText t.tok) t.pos)
  | [] => .error (errExpectKw kw "" eofPos)

/-- The `if p.tok != scanner.Ident { return error }` idiom at a named grammar
position: an identifier is required and consumed, its text returned. -/
def expectIdentP (what : String) : (toks : List Token) → Except PErr (String × {r : List Token // r.length < toks.length})
  | ⟨.ident s, _⟩ :: rest => .ok (s, ⟨rest, by simp only [List.length_cons]; omega⟩)
  | t :: _ => .error (errExpect what (tokText t.tok) t.pos)
  | [] => .error (errExpect what "" eofPos)

/-- The `if p.tok != scanner.String { return error }` idiom: a string literal
is required and consumed, its raw text returned. -/
def expectStrP (what : String) : (toks : List Token) → Except PErr (String × {r : List Token // r.length < toks.length})
  | ⟨.str s, _⟩ :: rest => .ok (s, ⟨rest, by simp only [List.length_cons]; omega⟩)
  | t :: _ => .error (errExpect what (tokText t.tok) t.pos)
  | [] => .error (errExpect what "" eofPos)

/-- The peek-and-consume idiom `if p.tok == scanner.Ident &&
p.scanner.TokenText() == kw { p.next() }`. -/
def matchKw (kw : String) : (toks : List Token) → Option {r : List Token // r.length < toks.length}
  | t :: rest =>
    if t.tok = Tok.ident kw then some ⟨rest, by simp only [List.length_cons]; omega⟩
    else none
  | [] => none

/-- The peek-and-consume idiom for a punctuation rune (`if p.tok != ','
break; p.next()`). -/
def matchPunct (c : Char) : (toks : List Token) → Option {r : List Token // r.length < toks.length}
  | t :: rest =>
    if t.tok = Tok.punct c then some ⟨rest, by simp only [List.length_cons]; omega⟩
    else none
  | [] => none

/-- Type node (grammar.Type); Constraints is always the empty map at parse
time, modelled as an always-empty association list. -/
structure TypeNode where
  name : String
  constraints : List (String × String)
  pos : Position
deriving Repr, DecidableEq

/-- Expression nodes of expr.go.  LiteralExpression's interface value is
always a string in the parser (quoted strings trimmed, numeric token texts). -/
inductive Expression where
  | identifier (name : String) (pos : Position)
  | literal (value : String) (pos : Position)
  | binary (left : Expression) (op : String) (right : Expression) (pos : Position)
  | call (fn : String) (args : List Expression) (pos : Position)
  | member (obj : Expression) (property : String) (pos : Position)
deriving Repr

/-- GetPosition() of an expression. -/
def Expression.getPos : Expression → Position
  | .identifier _ p => p
  | .literal _ p => p
  | .binary _ _ _ p => p
  | .call _ _ p => p
  | .member _ _ p => p

/-- FieldAssignment of a create statement. -/
structure FieldAssignment where
  field : String
  value : Expression
  pos : Position
deriving Repr

/-- Statement nodes of ast.go.  ThenStmt/ElseStmt and the return value are
nilable in Go, hence Options here. -/
inductive Statement where
  | ifStmt (cond : Expression) (thenStmt : Option Statement)
      (elseStmt : Option Statement) (pos : Position)
  | ret (value : Option Expression) (pos : Position)
  | assign (varName : String) (value : Expression) (pos : Position)
  | create (typeName : String) (assignments : List FieldAssignment) (pos : Position)
  | fail (message : String) (pos : Position)
deriving Repr

/-- Module declaration. -/
structure Module where
  name : String
  pos : Position
deriving Repr, DecidableEq

/-- FieldDef of the current record syntax. -/
structure FieldDef where
  name : String
  type : TypeNode
  pos : Position
deriving Repr, DecidableEq

/-- Record (current syntax). -/
structure Record where
  name : String
  fields : List FieldDef
  pos : Position
deriving Repr, DecidableEq

/-- Relationship of a legacy model field. -/
structure Relationship where
  kind : String
  target : String
  pos : Position
deriving Repr, DecidableEq

/-- Field of a legacy model. -/
structure Field where
  name : String
  type : TypeNode
  relationship : Option Relationship
  pos : Position
deriving Repr, DecidableEq

/-- Model (legacy syntax). -/
structure Model where
  name : String
  fields : List Field
  pos : Position
deriving Repr, DecidableEq

/-- TypeDef; Validation only ever receives the key "rule", modelled by an
optional rule string. -/
structure TypeDef where
  name : String
  baseType : TypeNode
  why : String
  validation : Option String
  pos : Position
deriving Repr, DecidableEq

/-- Function parameter. -/
structure Parameter where
  name : String
  type : TypeNode
  pos : Position
deriving Repr, DecidableEq

/-- AI annotation (Go type AIAnnotation; Lean name shortened). -/
structure AIAnnot where
  kind : String
  content : String
  pos : Position
deriving Repr, DecidableEq

/-- Native escape-hatch block. -/
structure NativeBlock where
  language : String
  code : String
  pos : Position
deriving Repr, DecidableEq

/-- FunctionBody: statements and native blocks in separate lists. -/
structure FunctionBody where
  statements : List Statement
  nativeBlocks : List NativeBlock
  pos : Position
deriving Repr

/-- Function declaration; Why is mandatory (empty only if the source string
was empty), ReturnType optional. -/
structure Function where
  name : String
  parameters : List Parameter
  returnType : Option TypeNode
  why : String
  aiAnnots : List AIAnnot
  body : FunctionBody
  pos : Position
deriving Repr

/-- Legacy assign-use declaration. -/
structure Assignment where
  typeName : String
  baseType : TypeNode
  why : String
  validation : Option String
  pos : Position
deriving Repr, DecidableEq

/-- Root File node. -/
structure File where
  module : Option Module
  records : List Record
  models : List Model
  functions : List Function
  typeDefs : List TypeDef
  assignments : List Assignment
  pos : Position
deriving Repr

/-- strings.TrimPrefix(s, "ai-"). -/
def trimAi (s : String) : String := if s.startsWith "ai-" then s.drop 3 else s

/-- strings.TrimSuffix(s, ":"). -/
def trimColon (s : String) : String := if s.endsWith ":" then s.dropRight 1 else s

/-- Annotation type as computed in parseAIAnnotation. -/
def annKind (s : String) : String := trimColon (trimAi s)

/-- parseModule: pos is taken at the `module` keyword; expectKeyword then the
module name. -/
def parseModule : (toks : List Token) → Except PErr (Module × {r : List Token // r.length < toks.length})
  | ⟨.ident "module", p⟩ :: rest =>
    match rest with
    | ⟨.ident name, _⟩ :: rest2 =>
        .ok (⟨name, p⟩, ⟨rest2, by simp only [List.length_cons]; omega⟩)
    | t :: _ => .error ⟨"expected module name, got " ++ goQuote (tokText t.tok), t.pos⟩
    | [] => .error ⟨"expected module name, got " ++ goQuote "", eofPos⟩
  | t :: _ => .error (errExpectKw "module" (tokText t.tok) t.pos)
  | [] => .error (errExpectKw "module" "" eofPos)

/-- parseType: a bare identifier; Constraints starts (and stays) empty. -/
def parseType : (toks : List Token) → Except PErr (TypeNode × {r : List Token // r.length < toks.length})
  | ⟨.ident n, p⟩ :: rest => .ok (⟨n, [], p⟩, ⟨rest, by simp only [List.length_cons]; omega⟩)
  | t :: _ => .error ⟨"expected type name, got " ++ goQuote (tokText t.tok), t.pos⟩
  | [] => .error ⟨"expected type name, got " ++ goQuote "", eofPos⟩

/-- The field loop of parseRecord with parseFieldDef inlined: consume
`name ':' Type` groups while the lookahead is an identifier that is not a
top-level keyword. -/
def recordLoop : (toks : List Token) → Except PErr (List FieldDef × {r : List Token // r.length ≤ toks.length})
  | ⟨.ident f, fp⟩ :: rest =>
    if isTopLevelKeyword f then
      .ok ([], ⟨⟨.ident f, fp⟩ :: rest, Nat.le_refl _⟩)
    else
      match rest with
      | ⟨.punct ':', _⟩ :: rest2 =>
        match rest2 with
        | ⟨.ident tn, tp⟩ :: rest3 =>
          match recordLoop rest3 with
          | .error e => .error e
          | .ok (fs, ⟨r, hr⟩) =>
              .ok (⟨f, ⟨tn, [], tp⟩, fp⟩ :: fs,
                ⟨r, by simp only [List.length_cons] at *; omega⟩)
        | t :: _ => .error ⟨"expected type name, got " ++ goQuote (tokText t.tok), t.pos⟩
        | [] => .error ⟨"expected type name, got " ++ goQuote "", eofPos⟩
      | t :: _ => .error (errExpect "':'" (tokText t.tok) t.pos)
      | [] => .error (errExpect "':'" "" eofPos)
  | other => .ok ([], ⟨other, Nat.le_refl _⟩)

/-- parseRecord: `record` keyword (already peeked by parseDefine), record
name, then the field loop. -/
def parseRecord : (toks : List Token) → Except PErr (Record × {r : List Token // r.length < toks.length})
  | ⟨.ident "record", p⟩ :: rest =>
    match rest with
    | ⟨.ident name, _⟩ :: rest2 =>
      match recordLoop rest2 with
      | .error e => .error e
      | .ok (fs, ⟨r, hr⟩) =>
          .ok (⟨name, fs, p⟩, ⟨r, by simp only [List.length_cons] at *; omega⟩)
    | t :: _ => .error ⟨"expected record name, got " ++ goQuote (tokText t.tok), t.pos⟩
    | [] => .error ⟨"expected record name, got " ++ goQuote "", eofPos⟩
  | t :: _ => .error (errExpectKw "record" (tokText t.tok) t.pos)
  | [] => .error (errExpectKw "record" "" eofPos)

/-- The optional why/validate clause loop of parseTypeDef.  A `validate:` not
followed by a string stores nothing and the loop simply continues; any other
identifier ends the loop without being consumed. -/
def tdLoop (why : String) (valid : Option String) :
    (toks : List Token) → Except PErr (String × Option String × {r : List Token // r.length ≤ toks.length})
  | ⟨.ident "why", _⟩ :: rest =>
    match rest with
    | ⟨.punct ':', _⟩ :: rest2 =>
      match rest2 with
      | ⟨.str q, _⟩ :: rest3 =>
        match tdLoop (trimQuotes q) valid rest3 with
        | .error e => .error e
        | .ok (w, v, ⟨r, hr⟩) =>
            .ok (w, v, ⟨r, by simp only [List.length_cons] at *; omega⟩)
      | t :: _ => .error ⟨"expected string after 'why:', got " ++ goQuote (tokText t.tok), t.pos⟩
      | [] => .error ⟨"expected string after 'why:', got " ++ goQuote "", eofPos⟩
    | t :: _ => .error (errExpect "':'" (tokText t.tok) t.pos)
    | [] => .error (errExpect "':'" "" eofPos)
  | ⟨.ident "validate", _⟩ :: rest =>
    match rest with
    | ⟨.punct ':', _⟩ :: rest2 =>
      match rest2 with
      | ⟨.str q, _⟩ :: rest3 =>
        match tdLoop why (some (trimQuotes q)) rest3 with
        | .error e => .error e
        | .ok (w, v, ⟨r, hr⟩) =>
            .ok (w, v, ⟨r, by simp only [List.length_cons] at *; omega⟩)
      | other =>
        match tdLoop why valid other with
        | .error e => .error e
        | .ok (w, v, ⟨r, hr⟩) =>
            .ok (w, v, ⟨r, by simp only [List.length_cons] at *; omega⟩)
    | t :: _ => .error (errExpect "':'" (tokText t.tok) t.pos)
    | [] => .error (errExpect "':'" "" eofPos)
  | other => .ok (why, valid, ⟨other, Nat.le_refl _⟩)

/-- parseTypeDef: `type` keyword, name, `as`, base type, then the clause
loop. -/
def parseTypeDef : (toks : List Token) → Except PErr (TypeDef × {r : List Token // r.length < toks.length})
  | ⟨.ident "type", p⟩ :: rest =>
    match rest with
    | ⟨.ident name, _⟩ :: rest2 =>
      match rest2 with
      | ⟨.ident "as", _⟩ :: rest3 =>
        match parseType rest3 with
        | .error e => .error e
        | .ok (bt, ⟨r1, h1⟩) =>
          match tdLoop "" none r1 with
          | .error e => .error e
          | .ok (w, v, ⟨r2, h2⟩) =>
              .ok (⟨name, bt, w, v, p⟩, ⟨r2, by simp only [List.length_cons] at *; omega⟩)
      | t :: _ => .error (errExpectKw "as" (tokText t.tok) t.pos)
      | [] => .error (errExpectKw "as" "" eofPos)
    | t :: _ => .error ⟨"expected type name, got " ++ goQuote (tokText t.tok), t.pos⟩
    | [] => .error ⟨"expected type name, got " ++ goQuote "", eofPos⟩
  | t :: _ => .error (errExpectKw "type" (tokText t.tok) t.pos)
  | [] => .error (errExpectKw "type" "" eofPos)

/-- The comma loop of parseParameterList with parseParameter inlined. -/
def paramLoop : (toks : List Token) → Except PErr (List Parameter × {r : List Token // r.length ≤ toks.length})
  | ⟨.ident n, p⟩ :: rest =>
    match rest with
    | ⟨.punct ':', _⟩ :: rest2 =>
      match rest2 with
      | ⟨.ident tn, tp⟩ :: rest3 =>
        match rest3 with
        | ⟨.punct ',', _⟩ :: rest4 =>
          match paramLoop rest4 with
          | .error e => .error e
          | .ok (ps, ⟨r, hr⟩) =>
              .ok (⟨n, ⟨tn, [], tp⟩, p⟩ :: ps,
                ⟨r, by simp only [List.length_cons] at *; omega⟩)
        | other =>
            .ok ([⟨n, ⟨tn, [], tp⟩, p⟩],
              ⟨other, by simp only [List.length_cons] at *; omega⟩)
      | t :: _ => .error ⟨"expected type name, got " ++ goQuote (tokText t.tok), t.pos⟩
      | [] => .error ⟨"expected type name, got " ++ goQuote "", eofPos⟩
    | t :: _ => .error (errExpect "':'" (tokText t.tok) t.pos)
    | [] => .error (errExpect "':'" "" eofPos)
  | t :: _ => .error ⟨"expected parameter name, got " ++ goQuote (tokText t.tok), t.pos⟩
  | [] => .error ⟨"expected parameter name, got " ++ goQuote "", eofPos⟩

/-- parseParameterList: an immediate `)` yields the empty list (and is left
for the caller to consume); otherwise the parameter loop runs. -/
def parseParameterList : (toks : List Token) → Except PErr (List Parameter × {r : List Token // r.length ≤ toks.length})
  | t :: rest =>
    if t.tok = Tok.punct ')' then .ok ([], ⟨t :: rest, Nat.le_refl _⟩)
    else paramLoop (t :: rest)
  | [] => paramLoop []

/-- The AI-annotation loop of parseFunction with parseAIAnnotation inlined:
consume `tag ':' STRING` groups while the lookahead is an annotation
keyword. -/
def annLoop : (toks : List Token) → Except PErr (List AIAnnot × {r : List Token // r.length ≤ toks.length})
  | ⟨.ident s, p⟩ :: rest =>
    if isAIAnnot s then
      match rest with
      | ⟨.punct ':', _⟩ :: rest2 =>
        match rest2 with
        | ⟨.str q, _⟩ :: rest3 =>
          match annLoop rest3 with
          | .error e => .error e
          | .ok (anns, ⟨r, hr⟩) =>
              .ok (⟨annKind s, trimQuotes q, p⟩ :: anns,
                ⟨r, by simp only [List.length_cons] at *; omega⟩)
        | t :: _ => .error ⟨"expected string after AI annotation, got " ++ goQuote (tokText t.tok), t.pos⟩
        | [] => .error ⟨"expected string after AI annotation, got " ++ goQuote "", eofPos⟩
      | t :: _ => .error (errExpect "':'" (tokText t.tok) t.pos)
      | [] => .error (errExpect "':'" "" eofPos)
    else .ok ([], ⟨⟨.ident s, p⟩ :: rest, Nat.le_refl _⟩)
  | other => .ok ([], ⟨other, Nat.le_refl _⟩)

/-- The optional `returns Type` clause of parseFunction. -/
def retClause : (toks : List Token) → Except PErr (Option TypeNode × {r : List Token // r.length ≤ toks.length})
  | ⟨.ident "returns", _⟩ :: rest =>
    match parseType rest with
    | .error e => .error e
    | .ok (t, ⟨r, hr⟩) => .ok (some t, ⟨r, by simp only [List.length_cons] at *; omega⟩)
  | other => .ok (none, ⟨other, Nat.le_refl _⟩)

/-- parseNativeBlock: a `go-native`/`ts-native` tag, `:`, and the native code
as a string.  Two of the three error messages here omit the offending token
text (they only carry the position). -/
def parseNativeBlock : (toks : List Token) → Except PErr (NativeBlock × {r : List Token // r.length < toks.length})
  | ⟨.ident bt, p⟩ :: rest =>
    match (if bt == "go-native" then some "go"
           else if bt == "ts-native" then some "ts" else none) with
    | none => .error ⟨"invalid native block type " ++ goQuote bt, p⟩
    | some lang =>
      match rest with
      | ⟨.punct ':', _⟩ :: rest2 =>
        match rest2 with
        | ⟨.str q, _⟩ :: rest3 =>
            .ok (⟨lang, trimQuotes q, p⟩, ⟨rest3, by simp only [List.length_cons]; omega⟩)
        | t :: _ => .error ⟨"expected native code string", t.pos⟩
        | [] => .error ⟨"expected native code string", eofPos⟩
      | t :: _ => .error (errExpect "':'" (tokText t.tok) t.pos)
      | [] => .error (errExpect "':'" "" eofPos)
  | t :: _ => .error ⟨"expected native block type", t.pos⟩
  | [] => .error ⟨"expected native block type", eofPos⟩

/-- parseFailStatement: `fail` then a mandatory message string. -/
def parseFailStatement : (toks : List Token) → Except PErr (Statement × {r : List Token // r.length < toks.length})
  | ⟨.ident "fail", p⟩ :: rest =>
    match rest with
    | ⟨.str m, _⟩ :: rest2 =>
        .ok (.fail (trimQuotes m) p, ⟨rest2, by simp only [List.length_cons]; omega⟩)
    | t :: _ => .error ⟨"expected error message string after 'fail', got " ++ goQuote (tokText t.tok), t.pos⟩
    | [] => .error ⟨"expected error message string after 'fail', got " ++ goQuote "", eofPos⟩
  | t :: _ => .error (errExpectKw "fail" (tokText t.tok) t.pos)
  | [] => .error (errExpectKw "fail" "" eofPos)

/-- The identifier-run loop of parseUseStatement. -/
def useLoop : (toks : List Token) → List String × {r : List Token // r.length ≤ toks.length}
  | ⟨.ident s, _⟩ :: rest =>
    match useLoop rest with
    | (parts, ⟨r, hr⟩) => (s :: parts, ⟨r, by simp only [List.length_cons] at *; omega⟩)
  | other => ([], ⟨other, Nat.le_refl _⟩)

/-- parseUseStatement: `use` followed by a run of identifiers, recorded as an
assignment of the joined phrase to the synthetic variable "__use__". -/
def parseUseStatement : (toks : List Token) → Except PErr (Statement × {r : List Token // r.length < toks.length})
  | ⟨.ident "use", p⟩ :: rest =>
    match useLoop rest with
    | (parts, ⟨r, hr⟩) =>
        .ok (.assign "__use__" (.literal (String.intercalate " " parts) p) p,
          ⟨r, by simp only [List.length_cons] at *; omega⟩)
  | t :: _ => .error (errExpectKw "use" (tokText t.tok) t.pos)
  | [] => .error (errExpectKw "use" "" eofPos)

/-- The legacy field loop of parseModel with parseField and parseRelationship
inlined: `name ':' Type` optionally followed by a relationship keyword and a
target, until `}` or end of input. -/
def modelLoop : (toks : List Token) → Except PErr (List Field × {r : List Token // r.length ≤ toks.length})
  | [] => .ok ([], ⟨[], Nat.le_refl _⟩)
  | ⟨.punct '}', p⟩ :: rest => .ok ([], ⟨⟨.punct '}', p⟩ :: rest, Nat.le_refl _⟩)
  | ⟨.ident f, fp⟩ :: rest =>
    match rest with
    | ⟨.punct ':', _⟩ :: rest2 =>
      match rest2 with
      | ⟨.ident tn, tp⟩ :: rest3 =>
        if (match rest3 with
            | ⟨.ident rk, _⟩ :: _ => isRelationshipKeyword rk
            | _ => false) then
          match rest3 with
          | ⟨.ident rk, rp⟩ :: rest4 =>
            match rest4 with
            | ⟨.ident target, _⟩ :: rest5 =>
              match modelLoop rest5 with
              | .error e => .error e
              | .ok (fs, ⟨r, hr⟩) =>
                  .ok (⟨f, ⟨tn, [], tp⟩, some ⟨rk, target, rp⟩, fp⟩ :: fs,
                    ⟨r, by simp only [List.length_cons] at *; omega⟩)
            | t :: _ => .error ⟨"expected target model name, got " ++ goQuote (tokText t.tok), t.pos⟩
            | [] => .error ⟨"expected target model name, got " ++ goQuote "", eofPos⟩
          | _ => .error ⟨"expected relationship keyword", eofPos⟩
        else
          match modelLoop rest3 with
          | .error e => .error e
          | .ok (fs, ⟨r, hr⟩) =>
              .ok (⟨f, ⟨tn, [], tp⟩, none, fp⟩ :: fs,
                ⟨r, by simp only [List.length_cons] at *; omega⟩)
      | t :: _ => .error ⟨"expected type name, got " ++ goQuote (tokText t.tok), t.pos⟩
      | [] => .error ⟨"expected type name, got " ++ goQuote "", eofPos⟩
    | t :: _ => .error (errExpect "':'" (tokText t.tok) t.pos)
    | [] => .error (errExpect "':'" "" eofPos)
  | t :: _ => .error ⟨"expected field name, got " ++ goQuote (tokText t.tok), t.pos⟩

/-- parseModel (legacy): `model` keyword, name, `{`, field loop, `}`. -/
def parseModel : (toks : List Token) → Except PErr (Model × {r : List Token // r.length < toks.length})
  | ⟨.ident "model", p⟩ :: rest =>
    match rest with
    | ⟨.ident name, _⟩ :: rest2 =>
      match rest2 with
      | ⟨.punct '{', _⟩ :: rest3 =>
        match modelLoop rest3 with
        | .error e => .error e
        | .ok (fs, ⟨r, hr⟩) =>
          match expect '}' "'\x7d'" r with
          | .error e => .error e
          | .ok ⟨r2, h2⟩ =>
              .ok (⟨name, fs, p⟩,
                ⟨r2, by simp only [List.length_cons] at *; omega⟩)
      | t :: _ => .error (errExpect "'\x7b'" (tokText t.tok) t.pos)
      | [] => .error (errExpect "'\x7b'" "" eofPos)
    | t :: _ => .error ⟨"expected model name, got " ++ goQuote (tokText t.tok), t.pos⟩
    | [] => .error ⟨"expected model name, got " ++ goQuote "", eofPos⟩
  | t :: _ => .error (errExpectKw "model" (tokText t.tok) t.pos)
  | [] => .error (errExpectKw "model" "" eofPos)

/-- The optional validate clause of parseAssignment (a non-string after
`validate:` stores nothing). -/
def asgnValidate (a : Assignment) : (toks : List Token) → Except PErr (Assignment × {r : List Token // r.length ≤ toks.length})
  | ⟨.ident "validate", _⟩ :: rest =>
    match rest with
    | ⟨.punct ':', _⟩ :: rest2 =>
      match rest2 with
      | ⟨.str q, _⟩ :: rest3 =>
          .ok ({a with validation := some (trimQuotes q)},
            ⟨rest3, by simp only [List.length_cons]; omega⟩)
      | other => .ok (a, ⟨other, by simp only [List.length_cons] at *; omega⟩)
    | t :: _ => .error (errExpect "':'" (tokText t.tok) t.pos)
    | [] => .error (errExpect "':'" "" eofPos)
  | other => .ok (a, ⟨other, Nat.le_refl _⟩)

/-- The optional why clause of parseAssignment, continuing into the validate
clause. -/
def asgnWhy (a : Assignment) : (toks : List Token) → Except PErr (Assignment × {r : List Token // r.length ≤ toks.length})
  | ⟨.ident "why", _⟩ :: rest =>
    match rest with
    | ⟨.punct ':', _⟩ :: rest2 =>
      match rest2 with
      | ⟨.str q, _⟩ :: rest3 =>
        match asgnValidate {a with why := trimQuotes q} rest3 with
        | .error e => .error e
        | .ok (a2, ⟨r, hr⟩) =>
            .ok (a2, ⟨r, by simp only [List.length_cons] at *; omega⟩)
      | t :: _ => .error ⟨"expected string after 'why:', got " ++ goQuote (tokText t.tok), t.pos⟩
      | [] => .error ⟨"expected string after 'why:', got " ++ goQuote "", eofPos⟩
    | t :: _ => .error (errExpect "':'" (tokText t.tok) t.pos)
    | [] => .error (errExpect "':'" "" eofPos)
  | other => asgnValidate a other

/-- parseAssignment (legacy assign-use): keyword, type name, `as`, base type,
optional why and validate clauses. -/
def parseAssignment : (toks : List Token) → Except PErr (Assignment × {r : List Token // r.length < toks.length})
  | ⟨.ident "assign-use", p⟩ :: rest =>
    match rest with
    | ⟨.ident tn, _⟩ :: rest2 =>
      match rest2 with
      | ⟨.ident "as", _⟩ :: rest3 =>
        match parseType rest3 with
        | .error e => .error e
        | .ok (bt, ⟨r1, h1⟩) =>
          match asgnWhy ⟨tn, bt, "", none, p⟩ r1 with
          | .error e => .error e
          | .ok (a, ⟨r2, h2⟩) =>
              .ok (a, ⟨r2, by simp only [List.length_cons] at *; omega⟩)
      | t :: _ => .error (errExpectKw "as" (tokText t.tok) t.pos)
      | [] => .error (errExpectKw "as" "" eofPos)
    | t :: _ => .error ⟨"expected type name, got " ++ goQuote (tokText t.tok), t.pos⟩
    | [] => .error ⟨"expected type name, got " ++ goQuote "", eofPos⟩
  | t :: _ => .error (errExpectKw "assign-use" (tokText t.tok) t.pos)
  | [] => .error (errExpectKw "assign-use" "" eofPos)

mutual

/-- parsePrimary: identifier (optionally extended to member access or call),
or a string/int/float literal.  Everything else is "unexpected token in
expression". -/
def parsePrimary : (toks : List Token) → Except PErr (Expression × {r : List Token // r.length < toks.length})
  | ⟨.ident name, pos⟩ :: ⟨.punct '.', _⟩ :: ⟨.ident prop, _⟩ :: rest3 =>
      .ok (.member (.identifier name pos) prop pos,
        ⟨rest3, by simp only [List.length_cons]; omega⟩)
  | ⟨.ident _, _⟩ :: ⟨.punct '.', _⟩ :: t :: _ =>
      .error ⟨"expected property name after '.', got " ++ goQuote (tokText t.tok), t.pos⟩
  | [⟨.ident _, _⟩, ⟨.punct '.', _⟩] =>
      .error ⟨"expected property name after '.', got " ++ goQuote "", eofPos⟩
  | ⟨.ident name, pos⟩ :: ⟨.punct '(', _⟩ :: ⟨.punct ')', _⟩ :: rest3 =>
      .ok (.call name [] pos, ⟨rest3, by simp only [List.length_cons]; omega⟩)
  | ⟨.ident name, pos⟩ :: ⟨.punct '(', _⟩ :: rest2 =>
      (match parseArgs rest2 with
       | .error e => .error e
       | .ok (args, ⟨r, hr⟩) =>
         match expect ')' "')'" r with
         | .error e => .error e
         | .ok ⟨r2, h2⟩ =>
             .ok (.call name args pos,
               ⟨r2, by simp only [List.length_cons] at *; omega⟩))
  | ⟨.ident name, pos⟩ :: rest =>
      .ok (.identifier name pos, ⟨rest, by simp only [List.length_cons]; omega⟩)
  | ⟨.str s, pos⟩ :: rest =>
      .ok (.literal (trimQuotes s) pos, ⟨rest, by simp only [List.length_cons]; omega⟩)
  | ⟨.int s, pos⟩ :: rest =>
      .ok (.literal s pos, ⟨rest, by simp only [List.length_cons]; omega⟩)
  | ⟨.float s, pos⟩ :: rest =>
      .ok (.literal s pos, ⟨rest, by simp only [List.length_cons]; omega⟩)
  | t :: _ => .error ⟨"unexpected token in expression: " ++ goQuote (tokText t.tok), t.pos⟩
  | [] => .error ⟨"unexpected token in expression: " ++ goQuote "", eofPos⟩
termination_by toks => toks.length * 4
decreasing_by
  all_goals simp_wf
  all_goals try simp only [List.length_cons] at *
  all_goals omega

/-- The argument loop inside parsePrimary's call case: expressions separated
by commas. -/
def parseArgs (toks : List Token) : Except PErr (List Expression × {r : List Token // r.length < toks.length}) :=
  match parseComparison toks with
  | .error e => .error e
  | .ok (e, ⟨r, hr⟩) =>
    match matchPunct ',' r with
    | none => .ok ([e], ⟨r, hr⟩)
    | some ⟨r2, h2⟩ =>
      (match parseArgs r2 with
       | .error e2 => .error e2
       | .ok (es, ⟨r3, h3⟩) => .ok (e :: es, ⟨r3, by omega⟩))
termination_by toks.length * 4 + 2
decreasing_by
  all_goals simp_wf
  all_goals omega

/-- parseComparison: one primary expression followed by the left-associative
comparison-operator loop. -/
def parseComparison (toks : List Token) : Except PErr (Expression × {r : List Token // r.length < toks.length}) :=
  match parsePrimary toks with
  | .error e => .error e
  | .ok (left, ⟨r, hr⟩) =>
    match compLoop left r with
    | .error e => .error e
    | .ok (e, ⟨r2, h2⟩) => .ok (e, ⟨r2, by omega⟩)
termination_by toks.length * 4 + 1
decreasing_by
  all_goals simp_wf
  all_goals omega

/-- The comparison-operator loop: `<`, `>`, `=` punctuation, or the
identifiers `contains` and `not` (`not` followed by `contains` makes the
two-word operator, otherwise the operator is `not` alone). -/
def compLoop (left : Expression) : (toks : List Token) → Except PErr (Expression × {r : List Token // r.length ≤ toks.length})
  | [] => .ok (left, ⟨[], Nat.le_refl _⟩)
  | t :: rest =>
    if t.tok = Tok.punct '<' then
      match compStep left "<" rest with
      | .error e => .error e
      | .ok (e, ⟨r, hr⟩) => .ok (e, ⟨r, by simp only [List.length_cons] at *; omega⟩)
    else if t.tok = Tok.punct '>' then
      match compStep left ">" rest with
      | .error e => .error e
      | .ok (e, ⟨r, hr⟩) => .ok (e, ⟨r, by simp only [List.length_cons] at *; omega⟩)
    else if t.tok = Tok.punct '=' then
      match compStep left "=" rest with
      | .error e => .error e
      | .ok (e, ⟨r, hr⟩) => .ok (e, ⟨r, by simp only [List.length_cons] at *; omega⟩)
    else if t.tok = Tok.ident "contains" then
      match compStep left "contains" rest with
      | .error e => .error e
      | .ok (e, ⟨r, hr⟩) => .ok (e, ⟨r, by simp only [List.length_cons] at *; omega⟩)
    else if t.tok = Tok.ident "not" then
      match matchKw "contains" rest with
      | some ⟨r2, h2⟩ =>
        (match compStep left "not contains" r2 with
         | .error e => .error e
         | .ok (e, ⟨r, hr⟩) => .ok (e, ⟨r, by simp only [List.length_cons] at *; omega⟩))
      | none =>
        (match compStep left "not" rest with
         | .error e => .error e
         | .ok (e, ⟨r, hr⟩) => .ok (e, ⟨r, by simp only [List.length_cons] at *; omega⟩))
    else .ok (left, ⟨t :: rest, Nat.le_refl _⟩)
termination_by toks => toks.length * 4 + 3
decreasing_by
  all_goals simp_wf
  all_goals try simp only [List.length_cons] at *
  all_goals omega

/-- One step of the comparison loop: parse the right operand and fold it into
a BinaryExpression (positioned at the left operand), then continue the
loop. -/
def compStep (left : Expression) (op : String) (toks : List Token) : Except PErr (Expression × {r : List Token // r.length ≤ toks.length}) :=
  match parsePrimary toks with
  | .error e => .error e
  | .ok (right, ⟨r, hr⟩) =>
    match compLoop (.binary left op right left.getPos) r with
    | .error e => .error e
    | .ok (e, ⟨r2, h2⟩) => .ok (e, ⟨r2, by omega⟩)
termination_by toks.length * 4 + 1
decreasing_by
  all_goals simp_wf
  all_goals omega

end

/-- parseExpression simply delegates to parseComparison. -/
def parseExpression (toks : List Token) : Except PErr (Expression × {r : List Token // r.length < toks.length}) :=
  parseComparison toks

/-- The lookahead test of parseReturnStatement: an identifier for which
isStatementKeyword holds (this larger set includes "for" and "while"). -/
def isStmtKwTok (t : Token) : Bool :=
  match t.tok with
  | .ident s => isStatementKeyword s
  | _ => false

/-- parseReturnStatement: `return` with an optional value; the value is
parsed unless the stream is at EOF or the lookahead is an identifier from
isStatementKeyword. -/
def parseReturnStatement : (toks : List Token) → Except PErr (Statement × {r : List Token // r.length < toks.length})
  | ⟨.ident "return", p⟩ :: rest =>
    match rest with
    | [] => .ok (.ret none p, ⟨[], by simp only [List.length_cons]; omega⟩)
    | t :: rest2 =>
      if isStmtKwTok t then
        .ok (.ret none p, ⟨t :: rest2, by simp only [List.length_cons]; omega⟩)
      else
        match parseComparison (t :: rest2) with
        | .error e => .error e
        | .ok (v, ⟨r, hr⟩) =>
            .ok (.ret (some v) p, ⟨r, by simp only [List.length_cons] at *; omega⟩)
  | t :: _ => .error (errExpectKw "return" (tokText t.tok) t.pos)
  | [] => .error (errExpectKw "return" "" eofPos)

/-- parseSetStatement: `set` name `=` expression. -/
def parseSetStatement : (toks : List Token) → Except PErr (Statement × {r : List Token // r.length < toks.length})
  | ⟨.ident "set", p⟩ :: rest =>
    match rest with
    | ⟨.ident v, _⟩ :: rest2 =>
      match rest2 with
      | ⟨.punct '=', _⟩ :: rest3 =>
        match parseComparison rest3 with
        | .error e => .error e
        | .ok (val, ⟨r, hr⟩) =>
            .ok (.assign v val p, ⟨r, by simp only [List.length_cons] at *; omega⟩)
      | t :: _ => .error (errExpect "'='" (tokText t.tok) t.pos)
      | [] => .error (errExpect "'='" "" eofPos)
    | t :: _ => .error ⟨"expected variable name after 'set', got " ++ goQuote (tokText t.tok), t.pos⟩
    | [] => .error ⟨"expected variable name after 'set', got " ++ goQuote "", eofPos⟩
  | t :: _ => .error (errExpectKw "set" (tokText t.tok) t.pos)
  | [] => .error (errExpectKw "set" "" eofPos)

/-- The greedy `field = expression` loop of parseCreateStatement, terminated
by a statement keyword, a top-level keyword, or any non-identifier. -/
def createLoop : (toks : List Token) → Except PErr (List FieldAssignment × {r : List Token // r.length ≤ toks.length})
  | ⟨.ident f, fp⟩ :: rest =>
    if isStatementKeyword f || isTopLevelKeyword f then
      .ok ([], ⟨⟨.ident f, fp⟩ :: rest, Nat.le_refl _⟩)
    else
      match rest with
      | ⟨.punct '=', _⟩ :: rest2 =>
        match parseComparison rest2 with
        | .error e => .error e
        | .ok (v, ⟨r, hr⟩) =>
          match createLoop r with
          | .error e => .error e
          | .ok (fas, ⟨r2, h2⟩) =>
              .ok (⟨f, v, fp⟩ :: fas, ⟨r2, by simp only [List.length_cons] at *; omega⟩)
      | t :: _ => .error (errExpect "'='" (tokText t.tok) t.pos)
      | [] => .error (errExpect "'='" "" eofPos)
  | other => .ok ([], ⟨other, Nat.le_refl _⟩)
termination_by toks => toks.length
decreasing_by
  all_goals
    simp_wf
    try simp only [List.length_cons] at *
    omega

/-- parseCreateStatement: `create` type name `with` `:` then the field
assignment loop. -/
def parseCreateStatement : (toks : List Token) → Except PErr (Statement × {r : List Token // r.length < toks.length})
  | ⟨.ident "create", p⟩ :: rest =>
    match rest with
    | ⟨.ident tn, _⟩ :: rest2 =>
      match rest2 with
      | ⟨.ident "with", _⟩ :: rest3 =>
        match rest3 with
        | ⟨.punct ':', _⟩ :: rest4 =>
          match createLoop rest4 with
          | .error e => .error e
          | .ok (fas, ⟨r, hr⟩) =>
              .ok (.create tn fas p, ⟨r, by simp only [List.length_cons] at *; omega⟩)
        | t :: _ => .error (errExpect "':'" (tokText t.tok) t.pos)
        | [] => .error (errExpect "':'" "" eofPos)
      | t :: _ => .error (errExpectKw "with" (tokText t.tok) t.pos)
      | [] => .error (errExpectKw "with" "" eofPos)
    | t :: _ => .error ⟨"expected type name after 'create', got " ++ goQuote (tokText t.tok), t.pos⟩
    | [] => .error ⟨"expected type name after 'create', got " ++ goQuote "", eofPos⟩
  | t :: _ => .error (errExpectKw "create" (tokText t.tok) t.pos)
  | [] => .error (errExpectKw "create" "" eofPos)

/-- Relation packaged with parseStatement's remaining tokens: never grows the
stream, and strictly consumes whenever the stream was non-empty (at EOF the
Go parser's p.next() is a no-op and nil is returned with the state
unchanged). -/
def ConsumesSome (toks r : List Token) : Prop :=
  r.length ≤ toks.length ∧ (toks ≠ [] → r.length < toks.length)

/-- The loop guard of parseFunctionBody: the token is an identifier that is a
top-level keyword. -/
def isTopStop (t : Token) : Bool :=
  match t.tok with
  | .ident s => isTopLevelKeyword s
  | _ => false

/-- The native-block test of parseFunctionBody: the token is the identifier
go-native or ts-native. -/
def isNativeTag (t : Token) : Bool :=
  match t.tok with
  | .ident s => s == "go-native" || s == "ts-native"
  | _ => false

/-- The tokens parseStatement dispatches on: the identifiers if, return, set,
create, fail, use (and only those; any other token falls to the silent-skip
default). -/
def startsStatement (t : Token) : Bool :=
  match t.tok with
  | .ident s => ["if", "return", "set", "create", "fail", "use"].contains s
  | _ => false

mutual

/-- parseStatement: dispatch on the leading keyword among if, return, set,
create, fail, use; at EOF nothing happens; any other token is skipped
silently and no statement is produced. -/
def parseStatement : (toks : List Token) → Except PErr (Option Statement × {r : List Token // ConsumesSome toks r})
  | [] => .ok (none, ⟨[], ⟨Nat.le_refl _, fun h => absurd rfl h⟩⟩)
  | t :: rest =>
    if t.tok = Tok.ident "if" then
      match parseIfStatement (t :: rest) with
      | .error e => .error e
      | .ok (s, ⟨r, hr⟩) => .ok (some s, ⟨r, ⟨Nat.le_of_lt hr, fun _ => hr⟩⟩)
    else if t.tok = Tok.ident "return" then
      match parseReturnStatement (t :: rest) with
      | .error e => .error e
      | .ok (s, ⟨r, hr⟩) => .ok (some s, ⟨r, ⟨Nat.le_of_lt hr, fun _ => hr⟩⟩)
    else if t.tok = Tok.ident "set" then
      match parseSetStatement (t :: rest) with
      | .error e => .error e
      | .ok (s, ⟨r, hr⟩) => .ok (some s, ⟨r, ⟨Nat.le_of_lt hr, fun _ => hr⟩⟩)
    else if t.tok = Tok.ident "create" then
      match parseCreateStatement (t :: rest) with
      | .error e => .error e
      | .ok (s, ⟨r, hr⟩) => .ok (some s, ⟨r, ⟨Nat.le_of_lt hr, fun _ => hr⟩⟩)
    else if t.tok = Tok.ident "fail" then
      match parseFailStatement (t :: rest) with
      | .error e => .error e
      | .ok (s, ⟨r, hr⟩) => .ok (some s, ⟨r, ⟨Nat.le_of_lt hr, fun _ => hr⟩⟩)
    else if t.tok = Tok.ident "use" then
      match parseUseStatement (t :: rest) with
      | .error e => .error e
      | .ok (s, ⟨r, hr⟩) => .ok (some s, ⟨r, ⟨Nat.le_of_lt hr, fun _ => hr⟩⟩)
    else
      .ok (none, ⟨rest,
        ⟨by simp only [List.length_cons]; omega,
         fun _ => by simp only [List.length_cons]; omega⟩⟩)
termination_by toks => toks.length * 2 + 1
decreasing_by
  all_goals simp_wf
  all_goals try simp only [List.length_cons] at *
  all_goals omega

/-- parseIfStatement: `if` condition `then` one statement, optionally `else`
one statement.  The branch statements may be absent (nil) because
parseStatement skips unrecognized tokens. -/
def parseIfStatement (toks : List Token) : Except PErr (Statement × {r : List Token // r.length < toks.length}) :=
  let pos := headPos toks
  match expectKw "if" toks with
  | .error e => .error e
  | .ok ⟨r1, h1⟩ =>
    match parseComparison r1 with
    | .error e => .error e
    | .ok (cond, ⟨r2, h2⟩) =>
      match expectKw "then" r2 with
      | .error e => .error e
      | .ok ⟨r3, h3⟩ =>
        match parseStatement r3 with
        | .error e => .error e
        | .ok (thenO, ⟨r4, h4⟩) =>
          match matchKw "else" r4 with
          | none =>
              .ok (.ifStmt cond thenO none pos,
                ⟨r4, by obtain ⟨h4a, _⟩ := h4; omega⟩)
          | some ⟨r5, h5⟩ =>
            match parseStatement r5 with
            | .error e => .error e
            | .ok (elseO, ⟨r6, h6⟩) =>
                .ok (.ifStmt cond thenO elseO pos,
                  ⟨r6, by
                    obtain ⟨h4a, _⟩ := h4
                    obtain ⟨h6a, _⟩ := h6
                    omega⟩)
termination_by toks.length * 2
decreasing_by
  all_goals simp_wf
  all_goals try (obtain ⟨h4a, h4b⟩ := h4)
  all_goals omega

end

/-- The statement/native-block loop of parseFunctionBody: stops at EOF or a
top-level keyword; a go-native/ts-native tag goes through parseNativeBlock
into the native-block list; everything else goes through parseStatement, and
a nil statement result (a skipped token) adds nothing. -/
def bodyLoop (toks : List Token) : Except PErr (List Statement × List NativeBlock × {r : List Token // r.length ≤ toks.length}) :=
  match toks with
  | [] => .ok ([], [], ⟨[], Nat.le_refl _⟩)
  | t :: rest =>
    if isTopStop t then
      .ok ([], [], ⟨t :: rest, Nat.le_refl _⟩)
    else if isNativeTag t then
      match parseNativeBlock (t :: rest) with
      | .error e => .error e
      | .ok (nb, ⟨r, hr⟩) =>
        match bodyLoop r with
        | .error e => .error e
        | .ok (ss, nbs, ⟨r2, h2⟩) =>
            .ok (ss, nb :: nbs, ⟨r2, by simp only [List.length_cons] at *; omega⟩)
    else
      match parseStatement (t :: rest) with
      | .error e => .error e
      | .ok (so, ⟨r, hr⟩) =>
        match bodyLoop r with
        | .error e => .error e
        | .ok (ss, nbs, ⟨r2, h2⟩) =>
          match so with
          | some s =>
              .ok (s :: ss, nbs, ⟨r2, by
                obtain ⟨hr1, _⟩ := hr
                simp only [List.length_cons] at *; omega⟩)
          | none =>
              .ok (ss, nbs, ⟨r2, by
                obtain ⟨hr1, _⟩ := hr
                simp only [List.length_cons] at *; omega⟩)
termination_by toks.length
decreasing_by
  all_goals simp_wf
  all_goals try (obtain ⟨hr1, hr2⟩ := hr; have hx := hr2 (by simp))
  all_goals try simp only [List.length_cons] at *
  all_goals omega

/-- parseFunctionBody: position taken at entry, then the body loop. -/
def parseFunctionBody (toks : List Token) : Except PErr (FunctionBody × {r : List Token // r.length ≤ toks.length}) :=
  match bodyLoop toks with
  | .error e => .error e
  | .ok (ss, nbs, r) => .ok (⟨ss, nbs, headPos toks⟩, r)

/-- parseFunction: `function` name `(` parameters `)` optional `returns`
type, AI annotations, mandatory `why:` string, mandatory `do:`, body. -/
def parseFunction (toks : List Token) : Except PErr (Function × {r : List Token // r.length < toks.length}) :=
  let pos := headPos toks
  match expectKw "function" toks with
  | .error e => .error e
  | .ok ⟨r1, h1⟩ =>
    match expectIdentP "function name" r1 with
    | .error e => .error e
    | .ok (name, ⟨r2, h2⟩) =>
      match expect '(' "'('" r2 with
      | .error e => .error e
      | .ok ⟨r3, h3⟩ =>
        match parseParameterList r3 with
        | .error e => .error e
        | .ok (ps, ⟨r4, h4⟩) =>
          match expect ')' "')'" r4 with
          | .error e => .error e
          | .ok ⟨r5, h5⟩ =>
            match retClause r5 with
            | .error e => .error e
            | .ok (rt, ⟨r6, h6⟩) =>
              match annLoop r6 with
              | .error e => .error e
              | .ok (anns, ⟨r7, h7⟩) =>
                match expectKw "why" r7 with
                | .error e => .error e
                | .ok ⟨r8, h8⟩ =>
                  match expect ':' "':'" r8 with
                  | .error e => .error e
                  | .ok ⟨r9, h9⟩ =>
                    match expectStrP "string after 'why:'" r9 with
                    | .error e => .error e
                    | .ok (w, ⟨r10, h10⟩) =>
                      match expectKw "do" r10 with
                      | .error e => .error e
                      | .ok ⟨r11, h11⟩ =>
                        match expect ':' "':'" r11 with
                        | .error e => .error e
                        | .ok ⟨r12, h12⟩ =>
                          match parseFunctionBody r12 with
                          | .error e => .error e
                          | .ok (body, ⟨r13, h13⟩) =>
                              .ok (⟨name, ps, rt, trimQuotes w, anns, body, pos⟩,
                                ⟨r13, by omega⟩)

/-- parseDefine: `define`, then dispatch on the following keyword (`record`
or `type`), appending the parsed declaration to the file. -/
def parseDefine (f : File) (toks : List Token) : Except PErr (File × {r : List Token // r.length < toks.length}) :=
  match expectKw "define" toks with
  | .error e => .error e
  | .ok ⟨r1, h1⟩ =>
    match r1 with
    | t :: rest2 =>
      if t.tok = Tok.ident "record" then
        match parseRecord (t :: rest2) with
        | .error e => .error e
        | .ok (rec, ⟨r, hr⟩) =>
            .ok ({f with records := f.records ++ [rec]},
              ⟨r, by simp only [List.length_cons] at *; omega⟩)
      else if t.tok = Tok.ident "type" then
        match parseTypeDef (t :: rest2) with
        | .error e => .error e
        | .ok (td, ⟨r, hr⟩) =>
            .ok ({f with typeDefs := f.typeDefs ++ [td]},
              ⟨r, by simp only [List.length_cons] at *; omega⟩)
      else
        .error ⟨"expected 'record' or 'type' after 'define', got " ++ goQuote (tokText t.tok), t.pos⟩
    | [] =>
        .error ⟨"expected 'record' or 'type' after 'define', got " ++ goQuote "", eofPos⟩

/-- The declaration loop of parseFile: top-level dispatch on define /
function / model / assign-use until EOF; anything else (a `module` keyword
included) is "unexpected token". -/
def declLoop (f : File) (toks : List Token) : Except PErr File :=
  match toks with
  | [] => .ok f
  | t :: rest =>
    if t.tok = Tok.ident "define" then
      match parseDefine f (t :: rest) with
      | .error e => .error e
      | .ok (f2, ⟨r, hr⟩) => declLoop f2 r
    else if t.tok = Tok.ident "function" then
      match parseFunction (t :: rest) with
      | .error e => .error e
      | .ok (fn, ⟨r, hr⟩) => declLoop {f with functions := f.functions ++ [fn]} r
    else if t.tok = Tok.ident "model" then
      match parseModel (t :: rest) with
      | .error e => .error e
      | .ok (m, ⟨r, hr⟩) => declLoop {f with models := f.models ++ [m]} r
    else if t.tok = Tok.ident "assign-use" then
      match parseAssignment (t :: rest) with
      | .error e => .error e
      | .ok (a, ⟨r, hr⟩) => declLoop {f with assignments := f.assignments ++ [a]} r
    else .error ⟨"unexpected token " ++ goQuote (tokText t.tok), t.pos⟩
termination_by toks.length
decreasing_by
  all_goals simp_wf
  all_goals try simp only [List.length_cons] at *
  all_goals omega

/-- parseFile: the File skeleton (empty declaration lists, position of the
first token), an optional leading module declaration, then the declaration
loop. -/
def parseFile (toks : List Token) : Except PErr File :=
  let f0 : File := ⟨none, [], [], [], [], [], headPos toks⟩
  match toks with
  | [] => declLoop f0 []
  | t :: rest =>
    if t.tok = Tok.ident "module" then
      match parseModule (t :: rest) with
      | .error e => .error e
      | .ok (m, ⟨r, _⟩) => declLoop {f0 with module := some m} r
    else declLoop f0 (t :: rest)

/-- The pair returned by Go's Parse/ParseString/ParseWithFilename: either a
File and nil error, or nil File and the error (every failing path in the
parser is a `return nil, err`). -/
def Parse (toks : List Token) : Option File × Option PErr :=
  match parseFile toks with
  | .ok f => (some f, none)
  | .error e => (none, some e)

/-- parseStatement with the termination bound erased. -/
def parseStatementW (toks : List Token) : Except PErr (Option Statement × List Token) :=
  match parseStatement toks with
  | .error e => .error e
  | .ok (s, r) => .ok (s, r.val)

/-- parseIfStatement with the termination bound erased. -/
def parseIfStatementW (toks : List Token) : Except PErr (Statement × List Token) :=
  match parseIfStatement toks with
  | .error e => .error e
  | .ok (s, r) => .ok (s, r.val)

/-- parseExpression with the termination bound erased. -/
def parseExpressionW (toks : List Token) : Except PErr (Expression × List Token) :=
  match parseExpression toks with
  | .error e => .error e
  | .ok (s, r) => .ok (s, r.val)

/-- The body loop with the termination bound erased. -/
def bodyLoopW (toks : List Token) : Except PErr (List Statement × List NativeBlock × List Token) :=
  match bodyLoop toks with
  | .error e => .error e
  | .ok (ss, nbs, r) => .ok (ss, nbs, r.val)

/-- parseParameterList with the termination bound erased. -/
def parseParameterListW (toks : List Token) : Except PErr (List Parameter × List Token) :=
  match parseParameterList toks with
  | .error e => .error e
  | .ok (ps, r) => .ok (ps, r.val)

/-- The returns clause with the termination bound erased. -/
def retClauseW (toks : List Token) : Except PErr (Option TypeNode × List Token) :=
  match retClause toks with
  | .error e => .error e
  | .ok (t, r) => .ok (t, r.val)

/-- The annotation loop with the termination bound erased. -/
def annLoopW (toks : List Token) : Except PErr (List AIAnnot × List Token) :=
  match annLoop toks with
  | .error e => .error e
  | .ok (a, r) => .ok (a, r.val)

/-- A token on which the body loop neither stops nor dispatches: not a
top-level keyword, not a native tag, and not one of the six
statement-starting keywords.  parseStatement consumes such a token silently. -/
def skippable (t : Token) : Bool :=
  !(isTopStop t) && !(isNativeTag t) && !(startsStatement t)

/-- A token that keeps the comparison loop going: the punctuation `<` `>` `=`
or the identifiers `contains` / `not`. -/
def isCompOp (t : Token) : Bool :=
  t.tok == Tok.punct '<' || t.tok == Tok.punct '>' || t.tok == Tok.punct '=' ||
  t.tok == Tok.ident "contains" || t.tok == Tok.ident "not"

/-- The lookahead test "current token is the identifier kw" (false at EOF). -/
def headIsKw (kw : String) : List Token → Bool
  | t :: _ => t.tok == Tok.ident kw
  | [] => false

/-- Token run of field declarations `name ':' Type`, one triple per field,
shared by the record and the legacy model syntax. -/
def fieldToks : List (String × String) → Position → List Token
  | [], _ => []
  | (f, ty) :: fs, pos =>
      ⟨.ident f, pos⟩ :: ⟨.punct ':', pos⟩ :: ⟨.ident ty, pos⟩ :: fieldToks fs pos

/-- Token run of a comma-separated parameter list `n ':' T , ...`. -/
def paramToks : List (String × String) → Position → List Token
  | [], _ => []
  | [(n, ty)], pos => [⟨.ident n, pos⟩, ⟨.punct ':', pos⟩, ⟨.ident ty, pos⟩]
  | (n, ty) :: ps, pos =>
      ⟨.ident n, pos⟩ :: ⟨.punct ':', pos⟩ :: ⟨.ident ty, pos⟩ :: ⟨.punct ',', pos⟩ ::
        paramToks ps pos

/-- The Parameter nodes parseParameterList builds from `paramToks`. -/
def mkParams (ps : List (String × String)) (pos : Position) : List Parameter :=
  ps.map (fun p => ⟨p.1, ⟨p.2, [], pos⟩, pos⟩)

/-- The FieldDef nodes recordLoop builds from `fieldToks`. -/
def mkFieldDefs (fs : List (String × String)) (pos : Position) : List FieldDef :=
  fs.map (fun p => ⟨p.1, ⟨p.2, [], pos⟩, pos⟩)

/-- The legacy Field nodes modelLoop builds from `fieldToks` (no
relationships). -/
def mkFields (fs : List (String × String)) (pos : Position) : List Field :=
  fs.map (fun p => ⟨p.1, ⟨p.2, [], pos⟩, none, pos⟩)

/-- Source tokens of `model N { fields }`. -/
def modelToks (n : String) (fields : List (String × String)) (pos : Position) : List Token :=
  ⟨.ident "model", pos⟩ :: ⟨.ident n, pos⟩ :: ⟨.punct '{', pos⟩ ::
    (fieldToks fields pos ++ [⟨.punct '}', pos⟩])

/-- Source tokens of `define record N` followed by the field lines. -/
def recordToks (n : String) (fields : List (String × String)) (pos : Position) : List Token :=
  ⟨.ident "define", pos⟩ :: ⟨.ident "record", pos⟩ :: ⟨.ident n, pos⟩ ::
    fieldToks fields pos

/-- The File produced for `modelToks`. -/
def modelFile (n : String) (fields : List (String × String)) (pos : Position) : File :=
  ⟨none, [], [⟨n, mkFields fields pos, pos⟩], [], [], [], pos⟩

/-- The File produced for `recordToks`. -/
def recordFile (n : String) (fields : List (String × String)) (pos : Position) : File :=
  ⟨none, [⟨n, mkFieldDefs fields pos, pos⟩], [], [], [], [], pos⟩

/-- The (field name, type name) sequence of a Record. -/
def recordShape (r : Record) : String × List (String × String) :=
  (r.name, r.fields.map (fun fd => (fd.name, fd.type.name)))

/-- The (field name, type name) sequence of a legacy Model. -/
def modelShape (m : Model) : String × List (String × String) :=
  (m.name, m.fields.map (fun fd => (fd.name, fd.type.name)))

/-- Header tokens of a function declaration up to and including the closing
parenthesis of its parameter list. -/
def funHeadToks (nm : String) (ps : List (String × String)) (pos : Position) : List Token :=
  ⟨.ident "function", pos⟩ :: ⟨.ident nm, pos⟩ :: ⟨.punct '(', pos⟩ ::
    (paramToks ps pos ++ [⟨.punct ')', pos⟩])

/-- Tokens of a complete minimal function `function nm(ps) why: w do: return`
whose body is a single bare return. -/
def fnOneToks (nm : String) (ps : List (String × String)) (w : String) (pos : Position) : List Token :=
  funHeadToks nm ps pos ++
    [⟨.ident "why", pos⟩, ⟨.punct ':', pos⟩, ⟨.str w, pos⟩,
     ⟨.ident "do", pos⟩, ⟨.punct ':', pos⟩, ⟨.ident "return", pos⟩]

/-- Tokens of a second function declaration of the simple shape
`function nm(ps) returns rt why: w do: return`. -/
def fnTwoToks (nm : String) (ps : List (String × String)) (rt w : String) (pos : Position) : List Token :=
  funHeadToks nm ps pos ++
    [⟨.ident "returns", pos⟩, ⟨.ident rt, pos⟩,
     ⟨.ident "why", pos⟩, ⟨.punct ':', pos⟩, ⟨.str w, pos⟩,
     ⟨.ident "do", pos⟩, ⟨.punct ':', pos⟩, ⟨.ident "return", pos⟩]

/-- The File the parser builds for `fnOneToks nm ps w pos ++ fnTwoToks ...`:
a single Function whose body holds a return of the swallowed Identifier
`function` followed by the second declaration's own bare return. -/
def c8file (nm : String) (ps : List (String × String)) (w : String) (pos : Position) : File :=
  ⟨none, [], [],
    [⟨nm, mkParams ps pos, none, trimQuotes w, [],
      ⟨[.ret (some (.identifier "function" pos)) pos, .ret none pos], [], pos⟩, pos⟩],
    [], [], pos⟩

theorem le_length_append_cons (l : List Token) (x : Token) (rest : List Token) :
    (x :: rest).length ≤ (l ++ x :: rest).length := by
  simp only [List.length_append, List.length_cons]; omega

/-- parseStatement consumes a token that starts no statement silently,
producing no statement and no error. -/
theorem parseStatement_skip (t : Token) (rest : List Token) (h : startsStatement t = false) :
    parseStatement (t :: rest) =
      .ok (none, ⟨rest,
        ⟨by simp only [List.length_cons]; omega,
         fun _ => by simp only [List.length_cons]; omega⟩⟩) := by
  obtain ⟨tok, pos⟩ := t
  rw [parseStatement.eq_def]
  cases tok with
  | ident s =>
    simp only [startsStatement, List.contains_cons, List.contains_nil, Bool.or_eq_false_iff,
      beq_eq_false_iff_ne, ne_eq] at h
    obtain ⟨h1, h2, h3, h4, h5, h6, -⟩ := h
    simp [Tok.ident.injEq, h1, h2, h3, h4, h5, h6]
  | int s => simp
  | float s => simp
  | str s => simp
  | char s => simp
  | comment s => simp
  | punct c => simp

/-- The silent skip at the erased level. -/
theorem parseStatementW_skip (t : Token) (rest : List Token) (h : startsStatement t = false) :
    parseStatementW (t :: rest) = .ok (none, rest) := by
  rw [parseStatementW, parseStatement_skip t rest h]

/-- One silently skipped token leaves the function-body loop's result
unchanged. -/
theorem bodyLoopW_skip (t : Token) (rest : List Token)
    (h1 : isTopStop t = false) (h2 : isNativeTag t = false)
    (h3 : startsStatement t = false) :
    bodyLoopW (t :: rest) = bodyLoopW rest := by
  unfold bodyLoopW
  conv_lhs => rw [bodyLoop.eq_def]
  simp only [h1, h2, Bool.false_eq_true, if_false, parseStatement_skip t rest h3]
  cases hb : bodyLoop rest with
  | error e => simp
  | ok v => obtain ⟨ss, nbs, ⟨r2, hr2⟩⟩ := v; simp

/-- A run of skippable tokens leaves the function-body loop's result
unchanged. -/
theorem bodyLoopW_skipRun (ts rest : List Token) (h : ∀ t ∈ ts, skippable t = true) :
    bodyLoopW (ts ++ rest) = bodyLoopW rest := by
  induction ts with
  | nil => simp
  | cons t ts ih =>
    have ht := h t (by simp)
    simp only [skippable, Bool.and_eq_true, Bool.not_eq_true'] at ht
    obtain ⟨⟨ha, hb⟩, hc⟩ := ht
    rw [List.cons_append, bodyLoopW_skip t _ ha hb hc,
      ih (fun u hu => h u (by simp [hu]))]

/-- The comparison loop stops at any token that is not a comparison
operator. -/
theorem compLoop_stop (left : Expression) (t : Token) (rest : List Token)
    (h : isCompOp t = false) :
    compLoop left (t :: rest) = .ok (left, ⟨t :: rest, Nat.le_refl _⟩) := by
  rw [compLoop.eq_def]
  simp only [isCompOp, Bool.or_eq_false_iff, beq_eq_false_iff_ne, ne_eq] at h
  obtain ⟨⟨⟨⟨h1, h2⟩, h3⟩, h4⟩, h5⟩ := h
  simp [h1, h2, h3, h4, h5]

/-- matchKw yields none when the lookahead is not the keyword. -/
theorem matchKw_none_of (kw : String) (toks : List Token) (h : headIsKw kw toks = false) :
    matchKw kw toks = none := by
  cases toks with
  | nil => rfl
  | cons t rest =>
    simp only [headIsKw, beq_eq_false_iff_ne, ne_eq] at h
    simp [matchKw, h]

/-- expectKeyword fails with its "expected '%s', got %q" error when the
lookahead is not the keyword. -/
theorem expectKw_error_of (kw : String) (toks : List Token) (h : headIsKw kw toks = false) :
    expectKw kw toks = .error (errExpectKw kw (headText toks) (headPos toks)) := by
  cases toks with
  | nil => rfl
  | cons t rest =>
    simp only [headIsKw, beq_eq_false_iff_ne, ne_eq] at h
    simp [expectKw, h, headText, headPos]

theorem paramLoop_paramToks (n ty : String) (ps : List (String × String))
    (pos : Position) (pq : Position) (rest : List Token) :
    paramLoop (paramToks ((n, ty) :: ps) pos ++ ⟨Tok.punct ')', pq⟩ :: rest) =
      .ok (mkParams ((n, ty) :: ps) pos,
        ⟨⟨Tok.punct ')', pq⟩ :: rest, le_length_append_cons _ _ _⟩) := by
  induction ps generalizing n ty with
  | nil => simp [paramToks, paramLoop, mkParams]
  | cons p ps ih =>
    obtain ⟨n2, ty2⟩ := p
    simp only [paramToks, List.cons_append, paramLoop, List.append_eq, ih, mkParams,
      List.map_cons]

/-- parseParameterList turns a parameter token run, up to the closing
parenthesis, into the corresponding Parameter nodes, leaving the parenthesis
unconsumed. -/
theorem parseParameterList_paramToks (ps : List (String × String))
    (pos pq : Position) (rest : List Token) :
    parseParameterList (paramToks ps pos ++ ⟨Tok.punct ')', pq⟩ :: rest) =
      .ok (mkParams ps pos,
        ⟨⟨Tok.punct ')', pq⟩ :: rest, le_length_append_cons _ _ _⟩) := by
  cases ps with
  | nil => simp [paramToks, parseParameterList, mkParams]
  | cons p ps =>
    obtain ⟨n, ty⟩ := p
    cases ps with
    | nil =>
      have h := paramLoop_paramToks n ty [] pos pq rest
      simp only [paramToks, List.cons_append, List.nil_append] at h ⊢
      simp [parseParameterList, h]
    | cons q qs =>
      have h := paramLoop_paramToks n ty (q :: qs) pos pq rest
      simp only [paramToks, List.cons_append] at h ⊢
      simp [parseParameterList, h]

/-- The record field loop turns a field token run into FieldDef nodes,
stopping at end of input, provided no field name is a top-level keyword. -/
theorem recordLoop_fieldToks (fields : List (String × String)) (pos : Position)
    (h : ∀ ft ∈ fields, isTopLevelKeyword ft.1 = false) :
    recordLoop (fieldToks fields pos) = .ok (mkFieldDefs fields pos, ⟨[], Nat.zero_le _⟩) := by
  induction fields with
  | nil => rfl
  | cons ft fs ih =>
    obtain ⟨f, ty⟩ := ft
    have hf := h (f, ty) (by simp)
    simp only at hf
    simp only [fieldToks, recordLoop, hf, Bool.false_eq_true, if_false,
      ih (fun u hu => h u (by simp [hu])), mkFieldDefs, List.map_cons]

/-- The legacy model field loop turns a field token run into Field nodes,
stopping at the closing brace, provided no field name is a relationship
keyword. -/
theorem modelLoop_fieldToks (fields : List (String × String)) (pos pb : Position)
    (rest : List Token) (h : ∀ ft ∈ fields, isRelationshipKeyword ft.1 = false) :
    modelLoop (fieldToks fields pos ++ ⟨Tok.punct '}', pb⟩ :: rest) =
      .ok (mkFields fields pos,
        ⟨⟨Tok.punct '}', pb⟩ :: rest, le_length_append_cons _ _ _⟩) := by
  induction fields with
  | nil => simp [fieldToks, modelLoop, mkFields]
  | cons ft fs ih =>
    obtain ⟨f, ty⟩ := ft
    have hcond : (match fieldToks fs pos ++ ⟨Tok.punct '}', pb⟩ :: rest with
        | ⟨Tok.ident rk, _⟩ :: _ => isRelationshipKeyword rk
        | _ => false) = false := by
      cases fs with
      | nil => simp [fieldToks]
      | cons g gs =>
        obtain ⟨g1, g2⟩ := g
        have hg := h (g1, g2) (by simp)
        simp only at hg
        simp [fieldToks, hg]
    simp only [fieldToks, List.cons_append]
    rw [modelLoop.eq_def]
    simp only [hcond, Bool.false_eq_true, if_false,
      ih (fun u hu => h u (by simp [hu])), mkFields, List.map_cons]

theorem parseStatementW_ok {toks : List Token} {so : Option Statement} {r : List Token}
    (h : parseStatementW toks = .ok (so, r)) :
    ∃ hp : ConsumesSome toks r, parseStatement toks = .ok (so, ⟨r, hp⟩) := by
  unfold parseStatementW at h
  cases hx : parseStatement toks with
  | error e => rw [hx] at h; cases h
  | ok v =>
    obtain ⟨so2, ⟨r2, hr2⟩⟩ := v
    rw [hx] at h
    simp only [Except.ok.injEq, Prod.mk.injEq] at h
    obtain ⟨h1, h2⟩ := h
    subst h1; subst h2
    exact ⟨hr2, rfl⟩

theorem parseExpressionW_ok {toks : List Token} {e : Expression} {r : List Token}
    (h : parseExpressionW toks = .ok (e, r)) :
    ∃ hp : r.length < toks.length, parseComparison toks = .ok (e, ⟨r, hp⟩) := by
  unfold parseExpressionW parseExpression at h
  cases hx : parseComparison toks with
  | error e2 => rw [hx] at h; cases h
  | ok v =>
    obtain ⟨e2, ⟨r2, hr2⟩⟩ := v
    rw [hx] at h
    simp only [Except.ok.injEq, Prod.mk.injEq] at h
    obtain ⟨h1, h2⟩ := h
    subst h1; subst h2
    exact ⟨hr2, rfl⟩

theorem retClauseW_ok {toks : List Token} {rt : Option TypeNode} {r : List Token}
    (h : retClauseW toks = .ok (rt, r)) :
    ∃ hp : r.length ≤ toks.length, retClause toks = .ok (rt, ⟨r, hp⟩) := by
  unfold retClauseW at h
  cases hx : retClause toks with
  | error e2 => rw [hx] at h; cases h
  | ok v =>
    obtain ⟨rt2, ⟨r2, hr2⟩⟩ := v
    rw [hx] at h
    simp only [Except.ok.injEq, Prod.mk.injEq] at h
    obtain ⟨h1, h2⟩ := h
    subst h1; subst h2
    exact ⟨hr2, rfl⟩

theorem annLoopW_ok {toks : List Token} {anns : List AIAnnot} {r : List Token}
    (h : annLoopW toks = .ok (anns, r)) :
    ∃ hp : r.length ≤ toks.length, annLoop toks = .ok (anns, ⟨r, hp⟩) := by
  unfold annLoopW at h
  cases hx : annLoop toks with
  | error e2 => rw [hx] at h; cases h
  | ok v =>
    obtain ⟨a2, ⟨r2, hr2⟩⟩ := v
    rw [hx] at h
    simp only [Except.ok.injEq, Prod.mk.injEq] at h
    obtain ⟨h1, h2⟩ := h
    subst h1; subst h2
    exact ⟨hr2, rfl⟩

theorem parseDefine_module {f : File} {toks : List Token} {f2 : File}
    {r : {r : List Token // r.length < toks.length}}
    (h : parseDefine f toks = .ok (f2, r)) : f2.module = f.module := by
  unfold parseDefine at h
  split at h
  · cases h
  · split at h
    · split at h
      · split at h
        · cases h
        · simp only [Except.ok.injEq, Prod.mk.injEq] at h
          rw [← h.1]
      · split at h
        · split at h
          · cases h
          · simp only [Except.ok.injEq, Prod.mk.injEq] at h
            rw [← h.1]
        · cases h
    · cases h

theorem declLoop_module_aux (n : Nat) : ∀ (toks : List Token) (f file : File),
    toks.length ≤ n → declLoop f toks = .ok file → file.module = f.module := by
  induction n with
  | zero =>
    intro toks f file hlen h
    cases toks with
    | nil => simp [declLoop] at h; rw [← h]
    | cons t rest => simp only [List.length_cons] at hlen; omega
  | succ n ih =>
    intro toks f file hlen h
    cases toks with
    | nil => simp [declLoop] at h; rw [← h]
    | cons t rest =>
      rw [declLoop.eq_def] at h
      simp only at h
      split at h
      · cases hd : parseDefine f (t :: rest) with
        | error e => rw [hd] at h; simp at h
        | ok v =>
          obtain ⟨f2, ⟨r, hr⟩⟩ := v
          rw [hd] at h
          have hstep : declLoop f2 r = .ok file := h
          have hm := parseDefine_module hd
          have := ih r f2 file (by simp only [List.length_cons] at hlen hr; omega) hstep
          rw [this, hm]
      · split at h
        · cases hd : parseFunction (t :: rest) with
          | error e => rw [hd] at h; simp at h
          | ok v =>
            obtain ⟨fn, ⟨r, hr⟩⟩ := v
            rw [hd] at h
            have hstep : declLoop {f with functions := f.functions ++ [fn]} r = .ok file := h
            have := ih r _ file (by simp only [List.length_cons] at hlen hr; omega) hstep
            rw [this]
        · split at h
          · cases hd : parseModel (t :: rest) with
            | error e => rw [hd] at h; simp at h
            | ok v =>
              obtain ⟨m, ⟨r, hr⟩⟩ := v
              rw [hd] at h
              have hstep : declLoop {f with models := f.models ++ [m]} r = .ok file := h
              have := ih r _ file (by simp only [List.length_cons] at hlen hr; omega) hstep
              rw [this]
          · split at h
            · cases hd : parseAssignment (t :: rest) with
              | error e => rw [hd] at h; simp at h
              | ok v =>
                obtain ⟨a, ⟨r, hr⟩⟩ := v
                rw [hd] at h
                have hstep : declLoop {f with assignments := f.assignments ++ [a]} r = .ok file := h
                have := ih r _ file (by simp only [List.length_cons] at hlen hr; omega) hstep
                rw [this]
            · cases h

theorem declLoop_module {f file : File} {toks : List Token}
    (h : declLoop f toks = .ok file) : file.module = f.module :=
  declLoop_module_aux toks.length toks f file (Nat.le_refl _) h

/-- A sample source position used by the concrete scenarios (token-level
positions do not influence any parsing decision). -/
def p0 : Position := ⟨1, 1, 0, ""⟩

/-- Shorthand for an identifier token at the sample position. -/
def identTok (s : String) : Token := ⟨.ident s, p0⟩

/-- Shorthand for a punctuation token at the sample position. -/
def punctTok (c : Char) : Token := ⟨.punct c, p0⟩

/-- Shorthand for a string token (raw text, quotes included) at the sample
position. -/
def strTok (s : String) : Token := ⟨.str s, p0⟩

/-- Shorthand for an int token at the sample position. -/
def intTok (s : String) : Token := ⟨.int s, p0⟩

/-- Token stream of the scenario source
`function check(age: Int) returns Int why: "age check" do:
 if age > 18 then set result = 1 else set result = 0 return result`. -/
def c4toks : List Token :=
  [identTok "function", identTok "check", punctTok '(', identTok "age", punctTok ':',
   identTok "Int", punctTok ')', identTok "returns", identTok "Int", identTok "why",
   punctTok ':', strTok "\"age check\"", identTok "do", punctTok ':',
   identTok "if", identTok "age", punctTok '>', intTok "18", identTok "then",
   identTok "set", identTok "result", punctTok '=', intTok "1",
   identTok "else", identTok "set", identTok "result", punctTok '=', intTok "0",
   identTok "return", identTok "result"]

/-- The File the scenario of c4toks parses to. -/
def c4file : File :=
  ⟨none, [], [],
   [⟨"check", [⟨"age", ⟨"Int", [], p0⟩, p0⟩], some ⟨"Int", [], p0⟩, "age check", [],
     ⟨[.ifStmt (.binary (.identifier "age" p0) ">" (.literal "18" p0) p0)
         (some (.assign "result" (.literal "1" p0) p0))
         (some (.assign "result" (.literal "0" p0) p0)) p0,
       .ret (some (.identifier "result" p0)) p0], [], p0⟩, p0⟩],
   [], [], p0⟩

/-- C1: Parse returns either a File with no error or no File with an error:
every Go return site is either `return file, nil` or `return nil, err`, the
first error aborting the parse, so no partially populated File ever
accompanies an error and no error aggregation exists. -/
theorem c1_parse_file_xor_error (toks : List Token) :
    (∃ f, Parse toks = (some f, none)) ∨ (∃ e, Parse toks = (none, some e)) := by
  cases h : parseFile toks with
  | ok f => exact Or.inl ⟨f, by simp [Parse, h]⟩
  | error e => exact Or.inr ⟨e, by simp [Parse, h]⟩

/-- C4: the scenario source parses to exactly one Function named check with
one parameter (age, Int), return type Int, why-string "age check", and a
body of exactly two statements: the if-statement with Binary(age, >, 18)
condition and assign-statements in both branches, then the return of the
identifier result. -/
theorem c4_scenario_function_check :
    Parse c4toks = (some c4file, none) := by
  have h : parseFile c4toks = .ok c4file := by
    simp [c4toks, c4file, parseFile, declLoop, parseFunction, parseParameterList, paramLoop,
      retClause, annLoop, parseFunctionBody, bodyLoop, parseStatement, parseIfStatement,
      parseComparison, parsePrimary, compLoop, compStep, parseArgs, parseSetStatement,
      parseReturnStatement, parseType, isTopLevelKeyword, isStatementKeyword, isAIAnnot,
      trimQuotes, headPos, tokText, goQuote, identTok, punctTok, strTok, intTok,
      isTopStop, isNativeTag, isStmtKwTok, p0,
      expect, expectKw, expectIdentP, expectStrP, matchKw, matchPunct, Expression.getPos]
  simp [Parse, h]

/-- The comment-only input used against C10 (the scanner mode has
ScanComments set but not SkipComments, so a comment reaches the parser as a
token). -/
def c10commentToks : List Token := [⟨Tok.comment "// just a comment", p0⟩]

/-- C10 counterexample: an input consisting only of a comment does NOT parse
successfully — the comment token reaches parseFile's declaration dispatch
and produces an unexpected-token error, contradicting the claim that any
whitespace-and-comments-only input yields an empty File. -/
theorem c10_counterexample_comment_input_fails :
    Parse c10commentToks = (none, some ⟨"unexpected token " ++ goQuote "// just a comment", p0⟩) := by
  have h : parseFile c10commentToks =
      .error ⟨"unexpected token " ++ goQuote "// just a comment", p0⟩ := by
    simp [c10commentToks, parseFile, declLoop, headPos, tokText]
  simp [Parse, h]

/-- C10 amended: for the empty token stream (the empty input, and any input
of whitespace only, which the scanner skips), Parse succeeds with no Module,
the EOF position, and all five declaration lists empty; comment-only inputs
are excluded because comments are scanned as tokens and rejected. -/
theorem c10_amended_empty_input_empty_file :
    Parse [] = (some ⟨none, [], [], [], [], [], eofPos⟩, none) := by
  have h : parseFile ([] : List Token) = .ok ⟨none, [], [], [], [], [], eofPos⟩ := by
    simp [parseFile, declLoop, headPos]
  simp [Parse, h]

/-- C5: a File holds at most one Module by construction (an Option field set
only before the declaration loop starts), and the module must come first:
the declaration loop, in any state, rejects a `module` keyword with an
unexpected-token error, and a successfully parsed File has a Module only
when the very first token of the source was the `module` keyword. -/
theorem c5_module_at_most_one_and_first :
    (∀ (f : File) (p : Position) (rest : List Token),
      declLoop f (⟨Tok.ident "module", p⟩ :: rest) =
        .error ⟨"unexpected token " ++ goQuote "module", p⟩) ∧
    (∀ (toks : List Token) (file : File), parseFile toks = .ok file →
      file.module.isSome = true →
      ∃ p rest, toks = ⟨Tok.ident "module", p⟩ :: rest) := by
  constructor
  · intro f p rest
    simp [declLoop, tokText]
  · intro toks file h hs
    cases toks with
    | nil =>
      simp [parseFile, declLoop] at h
      rw [← h] at hs
      simp at hs
    | cons t rest =>
      simp only [parseFile] at h
      split at h
      · obtain ⟨tk, tp⟩ := t
        rename_i ht
        simp only at ht
        subst ht
        exact ⟨tp, rest, rfl⟩
      · have hm := declLoop_module h
        rw [hm] at hs
        simp at hs

/-- C5 witness: the module-after-declaration rejection and the
module-from-first-token property, both at concrete inputs. -/
theorem c5_witness :
    (declLoop ⟨none, [], [], [], [], [], p0⟩ [⟨Tok.ident "module", p0⟩] =
      .error ⟨"unexpected token " ++ goQuote "module", p0⟩) ∧
    (∃ p rest, ([⟨Tok.ident "module", p0⟩, ⟨Tok.ident "m", p0⟩] : List Token) =
      ⟨Tok.ident "module", p⟩ :: rest) := by
  constructor
  · exact c5_module_at_most_one_and_first.1 ⟨none, [], [], [], [], [], p0⟩ p0 []
  · exact c5_module_at_most_one_and_first.2 [⟨Tok.ident "module", p0⟩, ⟨Tok.ident "m", p0⟩]
      ⟨some ⟨"m", p0⟩, [], [], [], [], [], p0⟩
      (by simp [parseFile, parseModule, declLoop, headPos]) rfl

theorem map_shape_mkFields (fields : List (String × String)) (pos : Position) :
    (mkFields fields pos).map (fun fd => (fd.name, fd.type.name)) = fields := by
  induction fields with
  | nil => rfl
  | cons a l ih => obtain ⟨x, y⟩ := a; simp [mkFields] at ih ⊢; exact ih

theorem map_shape_mkFieldDefs (fields : List (String × String)) (pos : Position) :
    (mkFieldDefs fields pos).map (fun fd => (fd.name, fd.type.name)) = fields := by
  induction fields with
  | nil => rfl
  | cons a l ih => obtain ⟨x, y⟩ := a; simp [mkFieldDefs] at ih ⊢; exact ih

/-- C3: for every record name and field list of plain non-keyword
identifiers, the legacy `model N { fields }` source and the current
`define record N` source both parse, producing one Model and one Record
respectively, with identical ordered (field name, type name) sequences. -/
theorem c3_model_record_equivalence (n : String) (fields : List (String × String))
    (pos : Position)
    (h : ∀ ft ∈ fields, isTopLevelKeyword ft.1 = false ∧ isRelationshipKeyword ft.1 = false) :
    Parse (modelToks n fields pos) = (some (modelFile n fields pos), none) ∧
    Parse (recordToks n fields pos) = (some (recordFile n fields pos), none) ∧
    (modelFile n fields pos).models.map modelShape = [(n, fields)] ∧
    (recordFile n fields pos).records.map recordShape = [(n, fields)] := by
  have hrel : ∀ ft ∈ fields, isRelationshipKeyword ft.1 = false := fun ft hft => (h ft hft).2
  have htop : ∀ ft ∈ fields, isTopLevelKeyword ft.1 = false := fun ft hft => (h ft hft).1
  refine ⟨?_, ?_, ?_, ?_⟩
  · have hp : parseFile (modelToks n fields pos) = .ok (modelFile n fields pos) := by
      simp [modelToks, parseFile, declLoop, parseModel, headPos, expect,
        modelLoop_fieldToks fields pos pos [] hrel, modelFile]
    simp [Parse, hp]
  · have hp : parseFile (recordToks n fields pos) = .ok (recordFile n fields pos) := by
      simp [recordToks, parseFile, declLoop, parseDefine, parseRecord, headPos, expectKw,
        recordLoop_fieldToks fields pos htop, recordFile]
    simp [Parse, hp]
  · simp [modelFile, modelShape, map_shape_mkFields]
  · simp [recordFile, recordShape, map_shape_mkFieldDefs]

/-- C3 witness: the two User examples with fields (id, Int) and
(name, String) parse and converge on the same field shape. -/
theorem c3_witness :
    Parse (modelToks "User" [("id", "Int"), ("name", "String")] p0) =
      (some (modelFile "User" [("id", "Int"), ("name", "String")] p0), none) ∧
    Parse (recordToks "User" [("id", "Int"), ("name", "String")] p0) =
      (some (recordFile "User" [("id", "Int"), ("name", "String")] p0), none) ∧
    (modelFile "User" [("id", "Int"), ("name", "String")] p0).models.map modelShape =
      [("User", [("id", "Int"), ("name", "String")])] ∧
    (recordFile "User" [("id", "Int"), ("name", "String")] p0).records.map recordShape =
      [("User", [("id", "Int"), ("name", "String")])] :=
  c3_model_record_equivalence "User" [("id", "Int"), ("name", "String")] p0 (by decide)

/-- C6: inside a function body, a token that is not EOF, not a top-level
keyword, not a native-block tag, and not one of the six statement keywords is
consumed silently: parseStatement yields no statement and no error, and the
body loop continues on the next token with nothing appended. -/
theorem c6_unknown_tokens_skipped (t : Token) (rest : List Token)
    (h1 : isTopStop t = false) (h2 : isNativeTag t = false)
    (h3 : startsStatement t = false) :
    parseStatementW (t :: rest) = .ok (none, rest) ∧
    bodyLoopW (t :: rest) = bodyLoopW rest :=
  ⟨parseStatementW_skip t rest h3, bodyLoopW_skip t rest h1 h2 h3⟩

/-- C6 witness: the identifier foo is silently skipped. -/
theorem c6_witness :
    parseStatementW [identTok "foo"] = .ok (none, []) ∧
    bodyLoopW [identTok "foo"] = bodyLoopW [] :=
  c6_unknown_tokens_skipped (identTok "foo") [] (by decide) (by decide) (by decide)

/-- C9: an if-statement can be built with nil branches and no error: when the
token after `then` (or after `else`) starts no statement, parseStatement
skips it and returns nil, so the IfStatement's ThenStmt (resp. ElseStmt) is
nil while parsing continues. -/
theorem c9_if_statement_nil_branches :
    (∀ (pos ptk : Position) (ts : List Token) (cond : Expression) (t : Token)
        (rest : List Token),
      parseExpressionW ts = .ok (cond, ⟨Tok.ident "then", ptk⟩ :: t :: rest) →
      startsStatement t = false →
      headIsKw "else" rest = false →
      parseIfStatementW (⟨Tok.ident "if", pos⟩ :: ts) =
        .ok (.ifStmt cond none none pos, rest)) ∧
    (∀ (pos ptk pe : Position) (ts ts2 : List Token) (cond : Expression)
        (thenO : Option Statement) (u : Token) (rest : List Token),
      parseExpressionW ts = .ok (cond, ⟨Tok.ident "then", ptk⟩ :: ts2) →
      parseStatementW ts2 = .ok (thenO, ⟨Tok.ident "else", pe⟩ :: u :: rest) →
      startsStatement u = false →
      parseIfStatementW (⟨Tok.ident "if", pos⟩ :: ts) =
        .ok (.ifStmt cond thenO none pos, rest)) := by
  constructor
  · intro pos ptk ts cond t rest hc ht he
    obtain ⟨hb, hcc⟩ := parseExpressionW_ok hc
    simp [parseIfStatementW, parseIfStatement, expectKw, headPos, hcc,
      parseStatement_skip t rest ht, matchKw_none_of "else" rest he]
  · intro pos ptk pe ts ts2 cond thenO u rest hc hs hu
    obtain ⟨hb, hcc⟩ := parseExpressionW_ok hc
    obtain ⟨hb2, hss⟩ := parseStatementW_ok hs
    simp [parseIfStatementW, parseIfStatement, expectKw, headPos, hcc, hss, matchKw,
      parseStatement_skip u rest hu]

/-- C9 witness: `if x then foo` leaves ThenStmt nil, and
`if x then foo2 else bar` leaves both branches nil, with no error. -/
theorem c9_witness :
    parseIfStatementW [⟨Tok.ident "if", p0⟩, identTok "x", identTok "then", identTok "foo"] =
      .ok (.ifStmt (.identifier "x" p0) none none p0, []) ∧
    parseIfStatementW
        [⟨Tok.ident "if", p0⟩, identTok "x", identTok "then", identTok "foo2",
         identTok "else", identTok "bar"] =
      .ok (.ifStmt (.identifier "x" p0) none none p0, []) := by
  constructor
  · exact c9_if_statement_nil_branches.1 p0 p0 [identTok "x", identTok "then", identTok "foo"]
      (.identifier "x" p0) (identTok "foo") []
      (by simp [parseExpressionW, parseExpression, parseComparison, parsePrimary, compLoop,
        identTok, p0])
      (by decide) (by decide)
  · exact c9_if_statement_nil_branches.2 p0 p0 p0
      [identTok "x", identTok "then", identTok "foo2", identTok "else", identTok "bar"]
      [identTok "foo2", identTok "else", identTok "bar"]
      (.identifier "x" p0) none (identTok "bar") []
      (by simp [parseExpressionW, parseExpression, parseComparison, parsePrimary, compLoop,
        identTok, p0])
      (parseStatementW_skip ⟨Tok.ident "foo2", p0⟩
        [⟨Tok.ident "else", p0⟩, ⟨Tok.ident "bar", p0⟩] (by decide))
      (by decide)

theorem expectKw_ok_cons (kw : String) (p : Position) (rest : List Token) :
    expectKw kw (⟨Tok.ident kw, p⟩ :: rest) =
      .ok ⟨rest, by simp only [List.length_cons]; omega⟩ := by
  simp [expectKw]

theorem expect_ok_cons (c : Char) (what : String) (p : Position) (rest : List Token) :
    expect c what (⟨Tok.punct c, p⟩ :: rest) =
      .ok ⟨rest, by simp only [List.length_cons]; omega⟩ := by
  simp [expect]

theorem expectIdentP_ok_cons (what s : String) (p : Position) (rest : List Token) :
    expectIdentP what (⟨Tok.ident s, p⟩ :: rest) =
      .ok (s, ⟨rest, by simp only [List.length_cons]; omega⟩) := by
  simp [expectIdentP]

theorem expectStrP_ok_cons (what s : String) (p : Position) (rest : List Token) :
    expectStrP what (⟨Tok.str s, p⟩ :: rest) =
      .ok (s, ⟨rest, by simp only [List.length_cons]; omega⟩) := by
  simp [expectStrP]

/-- C2: a function declaration whose mandatory why clause (or do clause) is
absent at its fixed position -- after the name, parameter list, optional
returns clause and AI annotations -- makes Parse return the terminal
expected-keyword error; no File (and hence no Function node, partial or
otherwise) is produced. -/
theorem c2_missing_why_or_do (nm : String) (ps : List (String × String)) (pos : Position) :
    (∀ (ts ts2 ts3 : List Token) (rt : Option TypeNode) (anns : List AIAnnot),
      retClauseW ts = .ok (rt, ts2) →
      annLoopW ts2 = .ok (anns, ts3) →
      headIsKw "why" ts3 = false →
      Parse (funHeadToks nm ps pos ++ ts) =
        (none, some (errExpectKw "why" (headText ts3) (headPos ts3)))) ∧
    (∀ (pw pc pws : Position) (w : String) (ts ts2 ts4 : List Token)
        (rt : Option TypeNode) (anns : List AIAnnot),
      retClauseW ts = .ok (rt, ts2) →
      annLoopW ts2 = .ok (anns,
        ⟨Tok.ident "why", pw⟩ :: ⟨Tok.punct ':', pc⟩ :: ⟨Tok.str w, pws⟩ :: ts4) →
      headIsKw "do" ts4 = false →
      Parse (funHeadToks nm ps pos ++ ts) =
        (none, some (errExpectKw "do" (headText ts4) (headPos ts4)))) := by
  constructor
  · intro ts ts2 ts3 rt anns h1 h2 h3
    obtain ⟨hb2, hrc⟩ := retClauseW_ok h1
    obtain ⟨hb3, han⟩ := annLoopW_ok h2
    have hexp := expectKw_error_of "why" ts3 h3
    have hp : parseFile (funHeadToks nm ps pos ++ ts) =
        .error (errExpectKw "why" (headText ts3) (headPos ts3)) := by
      simp [funHeadToks, parseFile, declLoop, parseFunction, headPos,
        List.cons_append, List.append_assoc, expectKw_ok_cons, expectIdentP_ok_cons,
        expect_ok_cons, parseParameterList_paramToks ps pos pos ts, hrc, han, hexp]
    simp [Parse, hp]
  · intro pw pc pws w ts ts2 ts4 rt anns h1 h2 h3
    obtain ⟨hb2, hrc⟩ := retClauseW_ok h1
    obtain ⟨hb3, han⟩ := annLoopW_ok h2
    have hexp := expectKw_error_of "do" ts4 h3
    have hp : parseFile (funHeadToks nm ps pos ++ ts) =
        .error (errExpectKw "do" (headText ts4) (headPos ts4)) := by
      simp [funHeadToks, parseFile, declLoop, parseFunction, headPos,
        List.cons_append, List.append_assoc, expectKw_ok_cons, expectIdentP_ok_cons,
        expect_ok_cons, expectStrP_ok_cons,
        parseParameterList_paramToks ps pos pos ts, hrc, han, hexp]
    simp [Parse, hp]

/-- C2 witness: `function f() do: return` (missing why) and
`function f() why: "w" return` (missing do) are both rejected. -/
theorem c2_witness :
    Parse (funHeadToks "f" [] p0 ++ [identTok "do"]) =
      (none, some (errExpectKw "why" "do" p0)) ∧
    Parse (funHeadToks "f" [] p0 ++
        [identTok "why", punctTok ':', strTok "\"w\"", identTok "return"]) =
      (none, some (errExpectKw "do" "return" p0)) := by
  constructor
  · have := (c2_missing_why_or_do "f" [] p0).1 [identTok "do"] [identTok "do"] [identTok "do"]
      none []
      (by simp [retClauseW, retClause, identTok])
      (by simp [annLoopW, annLoop, identTok, isAIAnnot])
      (by decide)
    simpa [headText, headPos, identTok, tokText] using this
  · have := (c2_missing_why_or_do "f" [] p0).2 p0 p0 p0 "\"w\""
      [identTok "why", punctTok ':', strTok "\"w\"", identTok "return"]
      [identTok "why", punctTok ':', strTok "\"w\"", identTok "return"]
      [identTok "return"] none []
      (by simp [retClauseW, retClause, identTok])
      (by simp [annLoopW, annLoop, identTok, punctTok, strTok, isAIAnnot])
      (by decide)
    simpa [headText, headPos, identTok, tokText] using this

theorem bodyLoopW_ok {toks : List Token} {ss : List Statement}
    {nbs : List NativeBlock} {r : List Token}
    (h : bodyLoopW toks = .ok (ss, nbs, r)) :
    ∃ hp : r.length ≤ toks.length, bodyLoop toks = .ok (ss, nbs, ⟨r, hp⟩) := by
  unfold bodyLoopW at h
  cases hx : bodyLoop toks with
  | error e => rw [hx] at h; cases h
  | ok v =>
    obtain ⟨ss2, nbs2, ⟨r2, hr2⟩⟩ := v
    rw [hx] at h
    simp only [Except.ok.injEq, Prod.mk.injEq] at h
    obtain ⟨h1, h2, h3⟩ := h
    subst h1; subst h2; subst h3
    exact ⟨hr2, rfl⟩

/-- Every token of a parameter run is silently skippable inside a function
body, provided the parameter names and type names are. -/
theorem paramToks_skippable (ps : List (String × String)) (pos : Position)
    (h : ∀ p ∈ ps, skippable ⟨Tok.ident p.1, pos⟩ = true ∧
      skippable ⟨Tok.ident p.2, pos⟩ = true) :
    ∀ t ∈ paramToks ps pos, skippable t = true := by
  induction ps with
  | nil => intro t ht; simp [paramToks] at ht
  | cons p ps ih =>
    obtain ⟨n, ty⟩ := p
    have hp := h (n, ty) (by simp)
    intro t ht
    cases ps with
    | nil =>
      simp only [paramToks, List.mem_cons, List.not_mem_nil, or_false] at ht
      rcases ht with rfl | rfl | rfl
      · exact hp.1
      · rfl
      · exact hp.2
    | cons q qs =>
      simp only [paramToks, List.mem_cons] at ht
      rcases ht with rfl | rfl | rfl | rfl | hmem
      · exact hp.1
      · rfl
      · exact hp.2
      · rfl
      · exact ih (fun u hu => h u (by simp [hu])) t hmem

/-- parsePrimary on an identifier followed by another identifier yields just
the Identifier expression. -/
theorem parsePrimary_ident_ident (nm s : String) (pos p2 : Position) (rest : List Token) :
    parsePrimary (⟨Tok.ident nm, pos⟩ :: ⟨Tok.ident s, p2⟩ :: rest) =
      .ok (.identifier nm pos,
        ⟨⟨Tok.ident s, p2⟩ :: rest, by simp only [List.length_cons]; omega⟩) := by
  rw [parsePrimary.eq_def]

/-- The expression parser, fed an identifier followed by another identifier
that is not a comparison operator, returns the lone Identifier and stops. -/
theorem parseExpressionW_ident_ident (nm s : String) (pos p2 : Position)
    (rest : List Token) (hc : s ≠ "contains") (hn : s ≠ "not") :
    parseExpressionW (⟨Tok.ident nm, pos⟩ :: ⟨Tok.ident s, p2⟩ :: rest) =
      .ok (.identifier nm pos, ⟨Tok.ident s, p2⟩ :: rest) := by
  have hcomp : isCompOp ⟨Tok.ident s, p2⟩ = false := by
    simp [isCompOp, hc, hn]
  unfold parseExpressionW parseExpression
  rw [parseComparison, parsePrimary_ident_ident]
  simp [compLoop_stop _ _ _ hcomp]

/-- A `return` whose lookahead is the identifier `function` parses a return
statement carrying the expression parsed from that point on. -/
theorem parseStatementW_return_fn (pos p2 : Position) (rest2 r : List Token)
    (e : Expression)
    (hcmp : parseExpressionW (⟨Tok.ident "function", p2⟩ :: rest2) = .ok (e, r)) :
    parseStatementW (⟨Tok.ident "return", pos⟩ :: ⟨Tok.ident "function", p2⟩ :: rest2) =
      .ok (some (.ret (some e) pos), r) := by
  obtain ⟨hb, hcm⟩ := parseExpressionW_ok hcmp
  unfold parseStatementW
  rw [parseStatement.eq_def]
  simp [parseReturnStatement, isStmtKwTok, isStatementKeyword, hcm]

/-- One parsed statement followed by a completed tail run of the body loop. -/
theorem bodyLoopW_cons_stmt (t : Token) (rest r r2 : List Token) (s : Statement)
    (ss : List Statement) (nbs : List NativeBlock)
    (h1 : isTopStop t = false) (h2 : isNativeTag t = false)
    (h3 : parseStatementW (t :: rest) = .ok (some s, r))
    (h4 : bodyLoopW r = .ok (ss, nbs, r2)) :
    bodyLoopW (t :: rest) = .ok (s :: ss, nbs, r2) := by
  obtain ⟨hcs, hps⟩ := parseStatementW_ok h3
  obtain ⟨hb, hloop⟩ := bodyLoopW_ok h4
  unfold bodyLoopW
  conv_lhs => rw [bodyLoop.eq_def]
  simp only [h1, h2, Bool.false_eq_true, if_false, hps, hloop]

/-- A body consisting of one bare `return` at end of input. -/
theorem bodyLoopW_bareReturn (pos : Position) :
    bodyLoopW [⟨Tok.ident "return", pos⟩] = .ok ([.ret none pos], [], []) := by
  simp [bodyLoopW, bodyLoop, parseStatement, parseReturnStatement,
    isTopStop, isNativeTag, isTopLevelKeyword]

/-- The body loop on `return` followed by a full second function declaration:
the `function` keyword is swallowed as the return value, the rest of the
second declaration's header is skipped token by token, and its own bare
`return` becomes a second statement of the FIRST function's body. -/
theorem bodyLoopW_fnTwo (nm2 rt2 w2 : String) (ps2 : List (String × String))
    (pos : Position)
    (h2 : skippable ⟨Tok.ident nm2, pos⟩ = true)
    (hc : nm2 ≠ "contains") (hn : nm2 ≠ "not")
    (hps : ∀ p ∈ ps2, skippable ⟨Tok.ident p.1, pos⟩ = true ∧
      skippable ⟨Tok.ident p.2, pos⟩ = true)
    (hrt : skippable ⟨Tok.ident rt2, pos⟩ = true) :
    bodyLoopW (⟨Tok.ident "return", pos⟩ :: fnTwoToks nm2 ps2 rt2 w2 pos) =
      .ok ([.ret (some (.identifier "function" pos)) pos, .ret none pos], [], []) := by
  have hex := parseExpressionW_ident_ident "function" nm2 pos pos
    (⟨Tok.punct '(', pos⟩ :: (paramToks ps2 pos ++
      ⟨Tok.punct ')', pos⟩ :: ⟨Tok.ident "returns", pos⟩ :: ⟨Tok.ident rt2, pos⟩ ::
      ⟨Tok.ident "why", pos⟩ :: ⟨Tok.punct ':', pos⟩ :: ⟨Tok.str w2, pos⟩ ::
      ⟨Tok.ident "do", pos⟩ :: ⟨Tok.punct ':', pos⟩ :: [⟨Tok.ident "return", pos⟩]))
    hc hn
  have hst := parseStatementW_return_fn pos pos _ _ _ hex
  have hall : ∀ t ∈ (⟨Tok.ident nm2, pos⟩ :: ⟨Tok.punct '(', pos⟩ ::
      (paramToks ps2 pos ++
       [⟨Tok.punct ')', pos⟩, ⟨Tok.ident "returns", pos⟩, ⟨Tok.ident rt2, pos⟩,
        ⟨Tok.ident "why", pos⟩, ⟨Tok.punct ':', pos⟩, ⟨Tok.str w2, pos⟩,
        ⟨Tok.ident "do", pos⟩, ⟨Tok.punct ':', pos⟩]) : List Token),
      skippable t = true := by
    intro t ht
    simp only [List.mem_cons, List.mem_append, List.not_mem_nil, or_false] at ht
    rcases ht with rfl | rfl | ht | rfl | rfl | rfl | rfl | rfl | rfl | rfl | rfl
    · exact h2
    · rfl
    · exact paramToks_skippable ps2 pos hps t ht
    · rfl
    · rfl
    · exact hrt
    · rfl
    · rfl
    · rfl
    · rfl
    · rfl
  have hrun := bodyLoopW_skipRun _ [⟨Tok.ident "return", pos⟩] hall
  rw [bodyLoopW_bareReturn] at hrun
  simp only [List.cons_append, List.append_assoc, List.nil_append,
    List.singleton_append] at hrun
  simp only [fnTwoToks, funHeadToks, List.cons_append, List.append_assoc,
    List.nil_append, List.singleton_append]
  exact bodyLoopW_cons_stmt _ _ _ _ _ _ _ rfl rfl hst hrun

/-- C8: the value parse of a `return` statement does not stop at top-level
declaration keywords, so a bare `return` at the end of a function body
swallows a following `function` keyword as its value Identifier; the header
tokens of the second declaration are then silently skipped inside the first
body and the File ends up with exactly one Function. -/
theorem c8_return_swallows_second_function
    (nm1 nm2 rt2 w1 w2 : String) (ps1 ps2 : List (String × String)) (pos : Position)
    (h2 : skippable ⟨Tok.ident nm2, pos⟩ = true)
    (hc : nm2 ≠ "contains") (hn : nm2 ≠ "not")
    (hps : ∀ p ∈ ps2, skippable ⟨Tok.ident p.1, pos⟩ = true ∧
      skippable ⟨Tok.ident p.2, pos⟩ = true)
    (hrt : skippable ⟨Tok.ident rt2, pos⟩ = true) :
    Parse (fnOneToks nm1 ps1 w1 pos ++ fnTwoToks nm2 ps2 rt2 w2 pos) =
      (some (c8file nm1 ps1 w1 pos), none) ∧
    (c8file nm1 ps1 w1 pos).functions.length = 1 := by
  refine ⟨?_, rfl⟩
  have hbody := bodyLoopW_fnTwo nm2 rt2 w2 ps2 pos h2 hc hn hps hrt
  obtain ⟨hb, hloop⟩ := bodyLoopW_ok hbody
  have hp : parseFile (fnOneToks nm1 ps1 w1 pos ++ fnTwoToks nm2 ps2 rt2 w2 pos) =
      .ok (c8file nm1 ps1 w1 pos) := by
    simp [fnOneToks, funHeadToks, parseFile, declLoop, parseFunction,
      parseFunctionBody, headPos, c8file, List.cons_append, List.append_assoc,
      expectKw_ok_cons, expectIdentP_ok_cons, expect_ok_cons, expectStrP_ok_cons,
      parseParameterList_paramToks ps1 pos pos _, hloop, retClause, annLoop,
      isAIAnnot]
  simp [Parse, hp]

/-- C8 witness: `function f() why: "a" do: return` directly followed by
`function g(x: Int) returns Int why: "b" do: return` parses to a File with a
single Function. -/
theorem c8_witness :
    Parse (fnOneToks "f" [] "\"a\"" p0 ++
        fnTwoToks "g" [("x", "Int")] "Int" "\"b\"" p0) =
      (some (c8file "f" [] "\"a\"" p0), none) ∧
    (c8file "f" [] "\"a\"" p0).functions.length = 1 :=
  c8_return_swallows_second_function "f" "g" "Int" "\"a\"" "\"b\"" [] [("x", "Int")] p0
    (by decide) (by decide) (by decide) (by decide) (by decide)

end CP

